import Mathlib

/-!
Verification of the raw-Bayer DNG writer (`dng.cpp` / `dng_encoder.cpp`).

The development embeds, directly from the C++ source, the bit unpackers
(`unpack_10bit`, `unpack_12bit`, `unpack_12bit_to_8bit`, `unpack_12bit_to_10bit`,
`unpack_16bit`), the PiSP block decompressor (`dequantize`, `subBlockFunction`,
`postprocess`, `uncompress`), the 3x3 matrix engine (`Matrix`), the pixel-format
registry (`bayer_formats`) and the metadata/IFD-field computation of `dng_save`,
and proves the specification claims about them.

Conventions of the embedding:
* Byte memory is a total function `Nat → Nat`; every `uint8_t` read applies
  `% 256` and every store of a `uint8_t`/`uint16_t` value applies `% 256` /
  `% 65536`, mirroring the C conversions.
* `unsigned int` values are `Nat`s; the masks `w & ~3`, `w & ~1`, `(w+7) & ~7`
  are embedded literally as `&&& 0xFFFFFFFC` etc. (the 32-bit complement
  masks), with theorems assuming `w < 2^32` as the C type guarantees.
* A C loop `for (x = 0; x < bound; x += step)` runs `⌈bound/step⌉` iterations,
  iteration `n` seeing `x = step * n`; the row/group recursions below are
  indexed by that iteration count.
* `float`/`double` arithmetic is modelled in `ℚ`.  Every concrete float
  computation relied on by a claim is exact in IEEE arithmetic (products and
  quotients by powers of two on integers below 2^24, and literals like 2.0,
  1.5), so the `ℚ` model agrees with the C float semantics there; this is
  noted at each definition concerned.
-/

namespace RpiDng

/-- Stream geometry handed to the unpackers: `width`/`height` in pixels,
`stride` in bytes per source row (`StreamInfo` in the source; the pixel-format
member is passed separately to the registry lookup). -/
structure StreamInfo where
  width : Nat
  height : Nat
  stride : Nat
deriving DecidableEq

/-- Embedding of `info.width & ~3` on 32-bit unsigned ints. -/
def wAlign4 (w : Nat) : Nat := w &&& 0xFFFFFFFC

/-- Embedding of `info.width & ~1` on 32-bit unsigned ints. -/
def wAlign2 (w : Nat) : Nat := w &&& 0xFFFFFFFE

/-- Embedding of `(info.width + 7) & ~7` on 32-bit unsigned ints
(`buf_stride_pixels_padded` in `dng_save`, `buf_stride_pixels` in
`uncompress`). -/
def padded8 (w : Nat) : Nat := (w + 7) &&& 0xFFFFFFF8

/-- Iteration count of `for (x = 0; x < (w & ~3); x += 4)` (one iteration per
4-pixel group of `unpack_10bit`). -/
def nGroups10 (w : Nat) : Nat := (wAlign4 w + 3) / 4

/-- Iteration count of `for (x = 0; x < (w & ~1); x += 2)` (one iteration per
2-pixel group of `unpack_12bit` / `unpack_12bit_to_8bit`). -/
def nGroups12 (w : Nat) : Nat := (wAlign2 w + 1) / 2

/-- Iteration count of `for (x = 0; x < (w & ~1); x += 4)` — the loop of
`unpack_12bit_to_10bit`, whose bound is the two-pixel alignment but whose step
consumes four pixels. -/
def nGroups12to10 (w : Nat) : Nat := (wAlign2 w + 3) / 4

/-- Iteration count of `for (x = 0; x < w; x += 8)` (one iteration per 8-pixel
group of `uncompress`). -/
def nGroupsC (w : Nat) : Nat := (w + 7) / 8

/-- Body of one iteration of the inner loop of `unpack_10bit`: reads the five
packed bytes at `p`, reconstructs the four 10-bit values, and emits the five
repacked output bytes and the four 16-bit samples. -/
def unpack10Group (src : Nat → Nat) (p : Nat) : List Nat × List Nat :=
  let p0 := src p % 256
  let p1 := src (p + 1) % 256
  let p2 := src (p + 2) % 256
  let p3 := src (p + 3) % 256
  let p4 := src (p + 4) % 256
  let val1 := ((p0 <<< 2) ||| ((p4 >>> 0) &&& 3)) % 65536
  let val2 := ((p1 <<< 2) ||| ((p4 >>> 2) &&& 3)) % 65536
  let val3 := ((p2 <<< 2) ||| ((p4 >>> 4) &&& 3)) % 65536
  let val4 := ((p3 <<< 2) ||| ((p4 >>> 6) &&& 3)) % 65536
  let byte1 := (val1 >>> 2) % 256
  let byte2 := (((val1 &&& 3) <<< 6) ||| (val2 >>> 4)) % 256
  let byte3 := (((val2 &&& 15) <<< 4) ||| (val3 >>> 6)) % 256
  let byte4 := (((val3 &&& 63) <<< 2) ||| (val4 >>> 8)) % 256
  let byte5 := (val4 &&& 255) % 256
  ([byte1, byte2, byte3, byte4, byte5], [val1, val2, val3, val4])

/-- First `n` iterations of the inner loop of `unpack_10bit` on the row whose
packed bytes start at `base`; iteration `g` reads bytes `base + 5g …
base + 5g + 4` (`ptr += 5` per iteration) and appends its outputs. -/
def unpack10Row (src : Nat → Nat) (base : Nat) : Nat → List Nat × List Nat
  | 0 => ([], [])
  | n + 1 =>
    let prev := unpack10Row src base n
    let g := unpack10Group src (base + 5 * n)
    (prev.1 ++ g.1, prev.2 ++ g.2)

/-- First `h` rows of `unpack_10bit`; row `y` starts at source byte
`y * stride` (`src += info.stride` per row) and the `dest`/`dest16Bit`
pointers advance continuously across rows. -/
def unpack10Rows (src : Nat → Nat) (info : StreamInfo) : Nat → List Nat × List Nat
  | 0 => ([], [])
  | h + 1 =>
    let prev := unpack10Rows src info h
    let r := unpack10Row src (h * info.stride) (nGroups10 info.width)
    (prev.1 ++ r.1, prev.2 ++ r.2)

/-- Embedding of `unpack_10bit`: returns the byte-packed output stream
(`dest`) and the parallel 16-bit buffer (`dest16Bit`) as the sequences of
values written, in write order. -/
def unpack_10bit (src : Nat → Nat) (info : StreamInfo) : List Nat × List Nat :=
  unpack10Rows src info info.height

/-- Production 10-bit CSI2 packing of a sample sequence (the layout
`unpack_10bit` consumes, per the spec: each group of 4 pixels occupies 5
bytes — 4 bytes of the 8 most-significant bits of each pixel, then one byte
holding the 2 least-significant bits of all four, pixel 0 in the lowest bit
pair).  `vals (y * width + x)` is the pixel at row `y`, column `x`. -/
def pack10 (vals : Nat → Nat) (info : StreamInfo) : Nat → Nat :=
  fun i =>
    let y := i / info.stride
    let o := i % info.stride
    let g := o / 5
    let k := o % 5
    let v := fun j => vals (y * info.width + 4 * g + j)
    if k < 4 then v k >>> 2
    else ((v 3 % 4) <<< 6) ||| (((v 2 % 4) <<< 4) ||| (((v 1 % 4) <<< 2) ||| (v 0 % 4)))

/-- Reader of one 5-byte group of the byte-packed output stream of
`unpack_10bit` (big-endian 10-bit packing: byte 1 holds bits 9..2 of value 1,
byte 2 holds bits 1..0 of value 1 and 9..4 of value 2, and so on). -/
def decode10Chunk (b1 b2 b3 b4 b5 : Nat) : List Nat :=
  [(b1 <<< 2) ||| (b2 >>> 6),
   ((b2 &&& 63) <<< 4) ||| (b3 >>> 4),
   ((b3 &&& 15) <<< 6) ||| (b4 >>> 2),
   ((b4 &&& 3) <<< 8) ||| b5]

/-- Reader of the whole byte-packed 10-bit output stream, 5 bytes at a
time. -/
def decode10 : List Nat → List Nat
  | b1 :: b2 :: b3 :: b4 :: b5 :: rest => decode10Chunk b1 b2 b3 b4 b5 ++ decode10 rest
  | _ => []

/-- Body of one iteration of the inner loop of `unpack_12bit`: reads the three
packed bytes at `p`, reconstructs the two 12-bit values, and emits the three
repacked output bytes and the two 16-bit samples. -/
def unpack12Group (src : Nat → Nat) (p : Nat) : List Nat × List Nat :=
  let p0 := src p % 256
  let p1 := src (p + 1) % 256
  let p2 := src (p + 2) % 256
  let val1 := ((p0 <<< 4) ||| ((p2 >>> 0) &&& 15)) % 65536
  let val2 := ((p1 <<< 4) ||| ((p2 >>> 4) &&& 15)) % 65536
  let byte1 := (val1 >>> 4) % 256
  let byte2 := (((val1 &&& 15) <<< 4) ||| (val2 >>> 8)) % 256
  let byte3 := (val2 &&& 255) % 256
  ([byte1, byte2, byte3], [val1, val2])

/-- First `n` iterations of the inner loop of `unpack_12bit` on the row whose
packed bytes start at `base`; iteration `g` reads bytes `base + 3g …
base + 3g + 2` (`ptr += 3` per iteration). -/
def unpack12Row (src : Nat → Nat) (base : Nat) : Nat → List Nat × List Nat
  | 0 => ([], [])
  | n + 1 =>
    let prev := unpack12Row src base n
    let g := unpack12Group src (base + 3 * n)
    (prev.1 ++ g.1, prev.2 ++ g.2)

/-- First `h` rows of `unpack_12bit`. -/
def unpack12Rows (src : Nat → Nat) (info : StreamInfo) : Nat → List Nat × List Nat
  | 0 => ([], [])
  | h + 1 =>
    let prev := unpack12Rows src info h
    let r := unpack12Row src (h * info.stride) (nGroups12 info.width)
    (prev.1 ++ r.1, prev.2 ++ r.2)

/-- Embedding of `unpack_12bit`: byte-packed output stream and parallel
16-bit buffer, in write order. -/
def unpack_12bit (src : Nat → Nat) (info : StreamInfo) : List Nat × List Nat :=
  unpack12Rows src info info.height

/-- Production 12-bit CSI2 packing of a sample sequence (the layout
`unpack_12bit` consumes: each group of 2 pixels occupies 3 bytes — 2 bytes of
the 8 most-significant bits of each pixel, then one byte holding the 4
least-significant bits of both, pixel 0 in the low nibble). -/
def pack12 (vals : Nat → Nat) (info : StreamInfo) : Nat → Nat :=
  fun i =>
    let y := i / info.stride
    let o := i % info.stride
    let g := o / 3
    let k := o % 3
    let v := fun j => vals (y * info.width + 2 * g + j)
    if k < 2 then v k >>> 4
    else ((v 1 % 16) <<< 4) ||| (v 0 % 16)

/-- Reader of one 3-byte group of the byte-packed output stream of
`unpack_12bit` (big-endian 12-bit packing). -/
def decode12Chunk (b1 b2 b3 : Nat) : List Nat :=
  [(b1 <<< 4) ||| (b2 >>> 4),
   ((b2 &&& 15) <<< 8) ||| b3]

/-- Reader of the whole byte-packed 12-bit output stream, 3 bytes at a
time. -/
def decode12 : List Nat → List Nat
  | b1 :: b2 :: b3 :: rest => decode12Chunk b1 b2 b3 ++ decode12 rest
  | _ => []

/-- Samples of the image as laid out row-major with `rowLen` samples per row:
the reference value both round-trip claims compare against. -/
def expectedVals (vals : Nat → Nat) (width rowLen height : Nat) : List Nat :=
  (List.range height).flatMap fun y => (List.range rowLen).map fun x => vals (y * width + x)

/-- Scaling map of `unpack_12bit_to_8bit`:
`uint8_t v8 = ((float)val / 4096.f) * 256`.  For `val < 2^24` the float
division and multiplication by powers of two are exact and the float-to-int
conversion truncates toward zero, so the map is exactly `⌊val/4096 * 256⌋`. -/
def scale12to8 (v : Nat) : Nat := (⌊(v : ℚ) / 4096 * 256⌋).toNat

/-- Scaling map of `unpack_12bit_to_10bit`:
`uint16_t v10 = ((float)val / 4096.f) * 1024` (exact in float, truncating). -/
def scale12to10 (v : Nat) : Nat := (⌊(v : ℚ) / 4096 * 1024⌋).toNat

/-- Body of one iteration of the inner loop of `unpack_12bit_to_8bit`: the two
reconstructed 12-bit values are scaled to 8 bits for the byte stream and
stored at native precision in the 16-bit buffer. -/
def unpack12to8Group (src : Nat → Nat) (p : Nat) : List Nat × List Nat :=
  let p0 := src p % 256
  let p1 := src (p + 1) % 256
  let p2 := src (p + 2) % 256
  let val1 := ((p0 <<< 4) ||| ((p2 >>> 0) &&& 15)) % 65536
  let val2 := ((p1 <<< 4) ||| ((p2 >>> 4) &&& 15)) % 65536
  ([scale12to8 val1 % 256, scale12to8 val2 % 256], [val1, val2])

/-- First `n` iterations of the inner loop of `unpack_12bit_to_8bit`
(`x += 2, ptr += 3` per iteration). -/
def unpack12to8Row (src : Nat → Nat) (base : Nat) : Nat → List Nat × List Nat
  | 0 => ([], [])
  | n + 1 =>
    let prev := unpack12to8Row src base n
    let g := unpack12to8Group src (base + 3 * n)
    (prev.1 ++ g.1, prev.2 ++ g.2)

/-- First `h` rows of `unpack_12bit_to_8bit`. -/
def unpack12to8Rows (src : Nat → Nat) (info : StreamInfo) : Nat → List Nat × List Nat
  | 0 => ([], [])
  | h + 1 =>
    let prev := unpack12to8Rows src info h
    let r := unpack12to8Row src (h * info.stride) (nGroups12 info.width)
    (prev.1 ++ r.1, prev.2 ++ r.2)

/-- Embedding of `unpack_12bit_to_8bit`. -/
def unpack_12bit_to_8bit (src : Nat → Nat) (info : StreamInfo) : List Nat × List Nat :=
  unpack12to8Rows src info info.height

/-- Body of one iteration of the inner loop of `unpack_12bit_to_10bit`: four
12-bit values are reconstructed from six source bytes, scaled to 10 bits,
repacked into five output bytes, and stored at native precision in the 16-bit
buffer. -/
def unpack12to10Group (src : Nat → Nat) (p : Nat) : List Nat × List Nat :=
  let p0 := src p % 256
  let p1 := src (p + 1) % 256
  let p2 := src (p + 2) % 256
  let p3 := src (p + 3) % 256
  let p4 := src (p + 4) % 256
  let p5 := src (p + 5) % 256
  let val1 := ((p0 <<< 4) ||| ((p2 >>> 0) &&& 15)) % 65536
  let val2 := ((p1 <<< 4) ||| ((p2 >>> 4) &&& 15)) % 65536
  let val3 := ((p3 <<< 4) ||| ((p5 >>> 0) &&& 15)) % 65536
  let val4 := ((p4 <<< 4) ||| ((p5 >>> 4) &&& 15)) % 65536
  let v1 := scale12to10 val1 % 65536
  let v2 := scale12to10 val2 % 65536
  let v3 := scale12to10 val3 % 65536
  let v4 := scale12to10 val4 % 65536
  let byte1 := (v1 >>> 2) % 256
  let byte2 := (((v1 &&& 3) <<< 6) ||| (v2 >>> 4)) % 256
  let byte3 := (((v2 &&& 15) <<< 4) ||| (v3 >>> 6)) % 256
  let byte4 := (((v3 &&& 63) <<< 2) ||| (v4 >>> 8)) % 256
  let byte5 := (v4 &&& 255) % 256
  ([byte1, byte2, byte3, byte4, byte5], [val1, val2, val3, val4])

/-- First `n` iterations of the inner loop of `unpack_12bit_to_10bit`
(`x += 4, ptr += 6` per iteration, against the 2-aligned bound). -/
def unpack12to10Row (src : Nat → Nat) (base : Nat) : Nat → List Nat × List Nat
  | 0 => ([], [])
  | n + 1 =>
    let prev := unpack12to10Row src base n
    let g := unpack12to10Group src (base + 6 * n)
    (prev.1 ++ g.1, prev.2 ++ g.2)

/-- First `h` rows of `unpack_12bit_to_10bit`. -/
def unpack12to10Rows (src : Nat → Nat) (info : StreamInfo) : Nat → List Nat × List Nat
  | 0 => ([], [])
  | h + 1 =>
    let prev := unpack12to10Rows src info h
    let r := unpack12to10Row src (h * info.stride) (nGroups12to10 info.width)
    (prev.1 ++ r.1, prev.2 ++ r.2)

/-- Embedding of `unpack_12bit_to_10bit`. -/
def unpack_12bit_to_10bit (src : Nat → Nat) (info : StreamInfo) : List Nat × List Nat :=
  unpack12to10Rows src info info.height

/-- One row of `unpack_16bit`: `memcpy(dest, src, 2 * w)` copies `w` 16-bit
samples; on the little-endian targets of this code sample `x` is
`src[2x] | src[2x+1] << 8`. -/
def unpack16Row (src : Nat → Nat) (base w : Nat) : List Nat :=
  (List.range w).map fun x => (src (base + 2 * x) % 256) ||| ((src (base + 2 * x + 1) % 256) <<< 8)

/-- First `h` rows of `unpack_16bit` (`dest += w`, `src += info.stride` per
row). -/
def unpack16Rows (src : Nat → Nat) (info : StreamInfo) : Nat → List Nat
  | 0 => []
  | h + 1 => unpack16Rows src info h ++ unpack16Row src (h * info.stride) info.width

/-- Embedding of `unpack_16bit` (16-bit buffer only; there is no byte-stream
output on this path). -/
def unpack_16bit (src : Nat → Nat) (info : StreamInfo) : List Nat :=
  unpack16Rows src info info.height

/-- Compression offset fixed by the source (`#define COMPRESS_OFFSET 2048`). -/
def COMPRESS_OFFSET : Nat := 2048

/-- Compression mode fixed by the source (`#define COMPRESS_MODE 1`). -/
def COMPRESS_MODE : Nat := 1

/-- Embedding of `postprocess`: the argument is a `uint16_t`; the companding
branch is statically dead under `COMPRESS_MODE 1` but embedded faithfully. -/
def postprocess (a0 : Nat) : Nat :=
  let a := a0 % 65536
  let a :=
    if COMPRESS_MODE &&& 2 ≠ 0 then
      if COMPRESS_MODE = 3 ∧ a < 0x4000 then a >>> 2
      else if a < 0x1000 then a >>> 4
      else if a < 0x1800 then (a - 0x800) >>> 3
      else if a < 0x3000 then (a - 0x1000) >>> 2
      else if a < 0x6000 then (a - 0x2000) >>> 1
      else if a < 0xC000 then a - 0x4000
      else 2 * (a - 0x8000)
    else a
  min 0xFFFF (a + COMPRESS_OFFSET)

/-- Embedding of `dequantize(q, qmode)`: `q` is the `uint16_t` parameter, the
returned `int` expression is converted back to `uint16_t` (`% 65536`). -/
def dequantize (q : Nat) (qmode : Nat) : Nat :=
  (match qmode with
   | 0 => if q < 320 then 16 * q else 32 * (q - 160)
   | 1 => 64 * q
   | 2 => 128 * q
   | _ => if q < 94 then 256 * q else min 0xFFFF (512 * (q - 47))) % 65536

/-- Quantized values `q[0..3]` that `subBlockFunction` extracts from one
32-bit word (the `int q[4]` of the source; arithmetic in `ℤ` as in C). -/
def subQ (w : Nat) (j : Nat) : Int :=
  let qmode := w &&& 3
  if qmode < 3 then
    let field0 : Int := ((w >>> 2) &&& 511 : Nat)
    let field1 : Int := ((w >>> 11) &&& 127 : Nat)
    let field2 : Int := ((w >>> 18) &&& 127 : Nat)
    let field3 : Int := ((w >>> 25) &&& 127 : Nat)
    let q1 : Int :=
      if qmode = 2 ∧ field0 ≥ 384 then field0
      else if field1 ≥ 64 then field0 else field0 + 64 - field1
    let q2 : Int :=
      if qmode = 2 ∧ field0 ≥ 384 then field1 + 384
      else if field1 ≥ 64 then field0 + field1 - 64 else field0
    let p1 := max 0 (q1 - 64)
    let p1 := if qmode = 2 then min 384 p1 else p1
    let p2 := max 0 (q2 - 64)
    let p2 := if qmode = 2 then min 384 p2 else p2
    match j with
    | 0 => p1 + field2
    | 1 => q1
    | 2 => q2
    | _ => p2 + field3
  else
    let pack0 : Int := ((w >>> 2) &&& 32767 : Nat)
    let pack1 : Int := ((w >>> 17) &&& 32767 : Nat)
    match j with
    | 0 => (pack0 % 16) + 16 * ((pack0 / 256) / 11)
    | 1 => (pack0 / 16) % 176
    | 2 => (pack1 % 16) + 16 * ((pack1 / 256) / 11)
    | _ => (pack1 / 16) % 176

/-- Conversion of `int q[j]` to the `uint16_t` parameter of `dequantize`. -/
def qArg (w : Nat) (j : Nat) : Nat := ((subQ w j) % 65536).toNat

/-- Embedding of `subBlockFunction(d, w)` as a transformer of the 16-bit
destination memory: it stores `dequantize(q[j], qmode)` into the four cells
`d[0], d[2], d[4], d[6]` and touches nothing else. -/
def subBlockFunction (mem : Nat → Nat) (d w : Nat) : Nat → Nat :=
  fun i =>
    if i = d then dequantize (qArg w 0) (w &&& 3)
    else if i = d + 2 then dequantize (qArg w 1) (w &&& 3)
    else if i = d + 4 then dequantize (qArg w 2) (w &&& 3)
    else if i = d + 6 then dequantize (qArg w 3) (w &&& 3)
    else mem i

/-- Little-endian 32-bit word assembled from four source bytes
(`w |= (*sp++) << (b * 8)` for `b = 0..3`). -/
def word32 (src : Nat → Nat) (p : Nat) : Nat :=
  (((0 ||| ((src p % 256) <<< 0)) ||| ((src (p + 1) % 256) <<< 8)) |||
      ((src (p + 2) % 256) <<< 16)) ||| ((src (p + 3) % 256) <<< 24)

/-- Postprocessing sweep `for (i = 0; i < 8; ++i, ++dp) *dp = postprocess(*dp)`
over the eight cells starting at `dp`. -/
def postprocess8 (mem : Nat → Nat) (dp : Nat) : Nat → Nat :=
  fun i => if dp ≤ i ∧ i < dp + 8 then postprocess (mem i) else mem i

/-- One iteration of the inner loop of `uncompress`: with `COMPRESS_MODE & 1`
set, reads the two 32-bit words at `sp`, decodes the first into the even
cells (`subBlockFunction(dp, w0)`) and the second into the odd cells
(`subBlockFunction(dp + 1, w1)`) and postprocesses all eight; the byte-expand
branch is embedded for fidelity though statically dead. -/
def uncompressGroup (src : Nat → Nat) (mem : Nat → Nat) (sp dp : Nat) : Nat → Nat :=
  if COMPRESS_MODE &&& 1 ≠ 0 then
    let w0 := word32 src sp
    let w1 := word32 src (sp + 4)
    postprocess8 (subBlockFunction (subBlockFunction mem dp w0) (dp + 1) w1) dp
  else
    fun i => if dp ≤ i ∧ i < dp + 8 then postprocess ((src (sp + (i - dp)) % 256) <<< 8) else mem i

/-- First `n` iterations of the inner loop of `uncompress` on one row:
iteration `g` reads 8 source bytes at `spBase + 8g` and fills the 8 cells at
`dpBase + 8g`. -/
def uncompressRowGo (src : Nat → Nat) (spBase dpBase : Nat) : Nat → (Nat → Nat) → Nat → Nat
  | 0, mem => mem
  | n + 1, mem =>
    uncompressGroup src (uncompressRowGo src spBase dpBase n mem) (spBase + 8 * n) (dpBase + 8 * n)

/-- First `h` rows of `uncompress`: row `y` reads source bytes from
`y * stride` and writes cells from `y * padded8 width`
(`buf_stride_pixels`). -/
def uncompressRows (src : Nat → Nat) (info : StreamInfo) : Nat → (Nat → Nat) → Nat → Nat
  | 0, mem => mem
  | h + 1, mem =>
    uncompressRowGo src (h * info.stride) (h * padded8 info.width) (nGroupsC info.width)
      (uncompressRows src info h mem)

/-- Embedding of `uncompress` as a transformer of the 16-bit destination
memory (`mem` is the zero-initialised `buf16Bit`). -/
def uncompress (src : Nat → Nat) (info : StreamInfo) (mem : Nat → Nat) : Nat → Nat :=
  uncompressRows src info info.height mem

/-- Value an 8-pixel group of `uncompress` leaves at relative cell `r`
(`0 ≤ r < 8`): even cells come from the first word, odd cells from the
second, all postprocessed.  Used to state the claims about `uncompress`. -/
def groupCell (w0 w1 : Nat) (r : Nat) : Nat :=
  if r % 2 = 0 then postprocess (dequantize (qArg w0 (r / 2)) (w0 &&& 3))
  else postprocess (dequantize (qArg w1 (r / 2)) (w1 &&& 3))

/-- Sample value `unpack_12bit` reconstructs for row `y`, column `x`, read
directly from the packed source bytes (`val1`/`val2` of the inner loop,
including the `uint16_t` conversion).  Used to state where each sample lands
in the 16-bit buffer. -/
def pix12 (src : Nat → Nat) (info : StreamInfo) (y x : Nat) : Nat :=
  let p := y * info.stride + 3 * (x / 2)
  if x % 2 = 0 then (((src p % 256) <<< 4) ||| (((src (p + 2) % 256) >>> 0) &&& 15)) % 65536
  else (((src (p + 1) % 256) <<< 4) ||| (((src (p + 2) % 256) >>> 4) &&& 15)) % 65536

/-- Sample value `unpack_10bit` reconstructs for row `y`, column `x`
(`val1..val4` of the inner loop, including the `uint16_t` conversion).  Used
to state where each sample lands in the 16-bit buffer. -/
def pix10 (src : Nat → Nat) (info : StreamInfo) (y x : Nat) : Nat :=
  let p := y * info.stride + 5 * (x / 4)
  (((src (p + x % 4) % 256) <<< 2) ||| (((src (p + 4) % 256) >>> (2 * (x % 4))) &&& 3)) % 65536

/-- Upper bound of the quantized values `subBlockFunction` can feed to
`dequantize` for each qmode (the per-qmode "field range" of the claims):
qmode 0/1 reach at most `511 + 127 = 638` (a 9-bit field plus adjustments
plus a 7-bit field), qmode 2 clamps the base at 384 so stays below
`384 + 127 = 511`, and qmode 3 builds values of at most `15 + 16·11 = 191`. -/
def qmodeRange : Nat → Nat
  | 0 => 638
  | 1 => 638
  | 2 => 511
  | _ => 191

/-- Embedding of the 3x3 `Matrix` struct of the source (`float m[9]`,
row-major), over `ℚ`.  The claims settled against it are algebraic
identities between matrix expressions, which hold in any field and make no
statement about float rounding. -/
structure Matrix where
  m0 : ℚ
  m1 : ℚ
  m2 : ℚ
  m3 : ℚ
  m4 : ℚ
  m5 : ℚ
  m6 : ℚ
  m7 : ℚ
  m8 : ℚ
deriving DecidableEq

/-- Diagonal constructor `Matrix(diag0, diag1, diag2)`. -/
def Matrix.diag (a b c : ℚ) : Matrix := ⟨a, 0, 0, 0, b, 0, 0, 0, c⟩

/-- Transpose `Matrix::T()`. -/
def Matrix.T (A : Matrix) : Matrix :=
  ⟨A.m0, A.m3, A.m6, A.m1, A.m4, A.m7, A.m2, A.m5, A.m8⟩

/-- Cofactor matrix `Matrix::C()`. -/
def Matrix.C (A : Matrix) : Matrix :=
  ⟨A.m4 * A.m8 - A.m5 * A.m7, -(A.m3 * A.m8 - A.m5 * A.m6), A.m3 * A.m7 - A.m4 * A.m6,
   -(A.m1 * A.m8 - A.m2 * A.m7), A.m0 * A.m8 - A.m2 * A.m6, -(A.m0 * A.m7 - A.m1 * A.m6),
   A.m1 * A.m5 - A.m2 * A.m4, -(A.m0 * A.m5 - A.m2 * A.m3), A.m0 * A.m4 - A.m1 * A.m3⟩

/-- Adjugate `Matrix::Adj()`. -/
def Matrix.Adj (A : Matrix) : Matrix := A.C.T

/-- Determinant `Matrix::Det()`. -/
def Matrix.Det (A : Matrix) : ℚ :=
  A.m0 * (A.m4 * A.m8 - A.m5 * A.m7) - A.m1 * (A.m3 * A.m8 - A.m5 * A.m6) +
    A.m2 * (A.m3 * A.m7 - A.m4 * A.m6)

/-- Scalar product `Matrix::operator*(float)`. -/
def Matrix.smul (A : Matrix) (f : ℚ) : Matrix :=
  ⟨A.m0 * f, A.m1 * f, A.m2 * f, A.m3 * f, A.m4 * f, A.m5 * f, A.m6 * f, A.m7 * f, A.m8 * f⟩

/-- Inverse `Matrix::Inv()` (`Adj() * (1.0 / Det())`; a singular matrix is
not special-cased, exactly as in the source). -/
def Matrix.Inv (A : Matrix) : Matrix := A.Adj.smul (1 / A.Det)

/-- Matrix product `Matrix::operator*(Matrix)`. -/
def Matrix.mul (A B : Matrix) : Matrix :=
  ⟨A.m0 * B.m0 + A.m1 * B.m3 + A.m2 * B.m6,
   A.m0 * B.m1 + A.m1 * B.m4 + A.m2 * B.m7,
   A.m0 * B.m2 + A.m1 * B.m5 + A.m2 * B.m8,
   A.m3 * B.m0 + A.m4 * B.m3 + A.m5 * B.m6,
   A.m3 * B.m1 + A.m4 * B.m4 + A.m5 * B.m7,
   A.m3 * B.m2 + A.m4 * B.m5 + A.m5 * B.m8,
   A.m6 * B.m0 + A.m7 * B.m3 + A.m8 * B.m6,
   A.m6 * B.m1 + A.m7 * B.m4 + A.m8 * B.m7,
   A.m6 * B.m2 + A.m7 * B.m5 + A.m8 * B.m8⟩

/-- Fixed sRGB-to-XYZ matrix constant of `dng_save` (the decimal literals are
carried exactly in `ℚ`; no claim evaluates them numerically). -/
def RGB2XYZ : Matrix :=
  ⟨0.4124564, 0.3575761, 0.1804375,
   0.2126729, 0.7151522, 0.0721750,
   0.0193339, 0.1191920, 0.9503041⟩

/-- Default colour-correction matrix used when the metadata carries none. -/
def defaultCCM : Matrix :=
  ⟨1.90255, -0.77478, -0.12777,
   -0.31338, 1.88197, -0.56858,
   -0.06001, -0.61785, 1.67786⟩

/-- CFA orderings (`static char TIFF_RGGB[4]` etc.): cell index to colour
plane, 0 = R, 1 = G, 2 = B. -/
def TIFF_RGGB : List Nat := [0, 1, 1, 2]

/-- CFA ordering GRBG. -/
def TIFF_GRBG : List Nat := [1, 0, 2, 1]

/-- CFA ordering BGGR. -/
def TIFF_BGGR : List Nat := [2, 1, 1, 0]

/-- CFA ordering GBRG. -/
def TIFF_GBRG : List Nat := [1, 2, 0, 1]

/-- Bayer layout descriptor (`struct BayerFormat`). -/
structure BayerFormat where
  name : String
  bits : Nat
  order : List Nat
  packed : Bool
  compressed : Bool
deriving DecidableEq

/-- Pixel-format identifiers appearing as keys of the static format table of
`dng.cpp`; `other` stands for any format outside the table. -/
inductive PixelFormat
  | SRGGB10_CSI2P
  | SGRBG10_CSI2P
  | SBGGR10_CSI2P
  | SGBRG10_CSI2P
  | SRGGB10
  | SGRBG10
  | SBGGR10
  | SGBRG10
  | SRGGB12_CSI2P
  | SGRBG12_CSI2P
  | SBGGR12_CSI2P
  | SGBRG12_CSI2P
  | SRGGB12
  | SGRBG12
  | SBGGR12
  | SGBRG12
  | SRGGB16
  | SGRBG16
  | SBGGR16
  | SGBRG16
  | R10_CSI2P
  | R10
  | R12
  | RGGB_PISP_COMP1
  | GRBG_PISP_COMP1
  | GBRG_PISP_COMP1
  | BGGR_PISP_COMP1
  | other (id : Nat)
deriving DecidableEq

/-- Static pixel-format registry of `dng.cpp` (`bayer_formats`); `none`
models absence from the `std::map`. -/
def bayer_formats : PixelFormat → Option BayerFormat
  | .SRGGB10_CSI2P => some ⟨"RGGB-10", 10, TIFF_RGGB, true, false⟩
  | .SGRBG10_CSI2P => some ⟨"GRBG-10", 10, TIFF_GRBG, true, false⟩
  | .SBGGR10_CSI2P => some ⟨"BGGR-10", 10, TIFF_BGGR, true, false⟩
  | .SGBRG10_CSI2P => some ⟨"GBRG-10", 10, TIFF_GBRG, true, false⟩
  | .SRGGB10 => some ⟨"RGGB-10", 10, TIFF_RGGB, false, false⟩
  | .SGRBG10 => some ⟨"GRBG-10", 10, TIFF_GRBG, false, false⟩
  | .SBGGR10 => some ⟨"BGGR-10", 10, TIFF_BGGR, false, false⟩
  | .SGBRG10 => some ⟨"GBRG-10", 10, TIFF_GBRG, false, false⟩
  | .SRGGB12_CSI2P => some ⟨"RGGB-12", 12, TIFF_RGGB, true, false⟩
  | .SGRBG12_CSI2P => some ⟨"GRBG-12", 12, TIFF_GRBG, true, false⟩
  | .SBGGR12_CSI2P => some ⟨"BGGR-12", 12, TIFF_BGGR, true, false⟩
  | .SGBRG12_CSI2P => some ⟨"GBRG-12", 12, TIFF_GBRG, true, false⟩
  | .SRGGB12 => some ⟨"RGGB-12", 12, TIFF_RGGB, false, false⟩
  | .SGRBG12 => some ⟨"GRBG-12", 12, TIFF_GRBG, false, false⟩
  | .SBGGR12 => some ⟨"BGGR-12", 12, TIFF_BGGR, false, false⟩
  | .SGBRG12 => some ⟨"GBRG-12", 12, TIFF_GBRG, false, false⟩
  | .SRGGB16 => some ⟨"RGGB-16", 16, TIFF_RGGB, false, false⟩
  | .SGRBG16 => some ⟨"GRBG-16", 16, TIFF_GRBG, false, false⟩
  | .SBGGR16 => some ⟨"BGGR-16", 16, TIFF_BGGR, false, false⟩
  | .SGBRG16 => some ⟨"GBRG-16", 16, TIFF_GBRG, false, false⟩
  | .R10_CSI2P => some ⟨"BGGR-10", 10, TIFF_BGGR, true, false⟩
  | .R10 => some ⟨"BGGR-10", 10, TIFF_BGGR, false, false⟩
  | .R12 => some ⟨"BGGR-12", 12, TIFF_BGGR, false, false⟩
  | .RGGB_PISP_COMP1 => some ⟨"RGGB-16-PISP", 16, TIFF_RGGB, false, true⟩
  | .GRBG_PISP_COMP1 => some ⟨"GRBG-16-PISP", 16, TIFF_GRBG, false, true⟩
  | .GBRG_PISP_COMP1 => some ⟨"GBRG-16-PISP", 16, TIFF_GBRG, false, true⟩
  | .BGGR_PISP_COMP1 => some ⟨"BGGR-16-PISP", 16, TIFF_BGGR, false, true⟩
  | .other _ => none

/-- Truncating conversion of a nonnegative C `float`/`double` to an unsigned
integer type (the ROI, ISO and buffer-size conversions of `dng_save`). -/
def truncToNat (q : ℚ) : Nat := (⌊q⌋).toNat

/-- Output slot the black level entering at index `i` is stored to
(`j = j == 0 ? 0 : (j == 2 ? 3 : 1 + !!order[i ^ 1])` in `dng_save`). -/
def cfaSlot (order : List Nat) (i : Nat) : Nat :=
  let j := order.getD i 0
  if j = 0 then 0
  else if j = 2 then 3
  else 1 + (if order.getD (i ^^^ 1) 0 ≠ 0 then 1 else 0)

/-- Black levels written to the DNG, as the 4-element array in CFA cell
order: the default (`4096 * 2^bits / 65536`, with the force-8/10 overrides
`16+12` / `64+4`) for every cell, overwritten — when sensor black-level
metadata is present — by the loop reordering the incoming `[R, Gr, Gb, B]`
values through `cfaSlot` and scaling each by `2^bits / 65536`. -/
def blackLevelsOf (bf : BayerFormat) (force8 force10 : Bool) (bl : Option (List ℚ)) : List ℚ :=
  let black : ℚ :=
    if force8 then 16 + 12
    else if force10 then 64 + 4
    else 4096 * 2 ^ bf.bits / 65536
  match bl with
  | none => [black, black, black, black]
  | some l =>
    let upd := fun (lev : Nat → ℚ) (i : Nat) => fun s =>
      if s = cfaSlot bf.order i then l.getD i 0 * 2 ^ bf.bits / 65536 else lev s
    let lev := List.foldl upd (fun _ => black) [0, 1, 2, 3]
    [lev 0, lev 1, lev 2, lev 3]

/-- White-balance gain matrix `WB_GAINS` (`Matrix((*cg)[0], 1, (*cg)[1])`,
identity when colour-gain metadata is absent). -/
def wbGainsOf : Option (ℚ × ℚ) → Matrix
  | none => Matrix.diag 1 1 1
  | some (r, b) => Matrix.diag r 1 b

/-- As-shot neutral triple `NEUTRAL` (`{1/cg0, 1, 1/cg1}`, unity when
colour-gain metadata is absent). -/
def neutralOf : Option (ℚ × ℚ) → List ℚ
  | none => [1, 1, 1]
  | some (r, b) => [1 / r, 1, 1 / b]

/-- Colour-correction matrix `CCM` (metadata value, or the fixed plausible
default). -/
def ccmOf : Option (List ℚ) → Matrix
  | none => defaultCCM
  | some c =>
    ⟨c.getD 0 0, c.getD 1 0, c.getD 2 0, c.getD 3 0, c.getD 4 0, c.getD 5 0, c.getD 6 0,
     c.getD 7 0, c.getD 8 0⟩

/-- Metadata dictionary entries `dng_save` consumes (each `Option` models a
`metadata.get` that may fail). -/
structure DngMetadata where
  sensorBlackLevels : Option (List ℚ)
  exposureTime : Option ℚ
  analogueGain : Option ℚ
  colourGains : Option (ℚ × ℚ)
  colourCorrectionMatrix : Option (List ℚ)
  lensPosition : Option ℚ
deriving DecidableEq

/-- Metadata dictionary with every entry absent. -/
def noMetadata : DngMetadata := ⟨none, none, none, none, none, none⟩

/-- Options `dng_save` reads: forced output depth and region-of-interest
fractions. -/
structure DngOptions where
  force_8_bit : Bool
  force_10_bit : Bool
  roi_x : ℚ
  roi_y : ℚ
  roi_width : ℚ
  roi_height : ℚ
deriving DecidableEq

/-- Options with no forced depth and a zero (full-frame) ROI. -/
def defaultOptions : DngOptions := ⟨false, false, 0, 0, 0, 0⟩

/-- Fixed thumbnail downscale shift of `dng.cpp`
(`unsigned int thumbnailSizeMultiplier = 4`). -/
def thumbnailSizeMultiplier : Nat := 4

/-- Scalar and tag values `dng_save` computes and hands to the TIFF writer,
plus the two buffer sizes it allocates and the stride `buf_stride_pixels`
its thumbnail loop indexes the 16-bit buffer with.  Fields are in source
order of the
`TIFFSetField` calls: thumbnail IFD dimensions and bit depth, main IFD
dimensions (after ROI clamping), bits-per-sample, CFA pattern, white level,
black levels, as-shot neutral, colour matrix, exposure time, ISO. -/
structure DngFields where
  thumbWidth : Nat
  thumbHeight : Nat
  thumbBits : Nat
  mainWidth : Nat
  mainHeight : Nat
  bitsPerSample : Nat
  cfaPattern : List Nat
  whiteLevel : Nat
  blackLevels : List ℚ
  neutral : List ℚ
  colorMatrix : Matrix
  expTime : ℚ
  iso : Nat
  buf8Len : Nat
  buf16Len : Nat
  thumbStride : Nat

/-- Embedding of the computational core of `dng_save`: registry lookup
(throwing on an unknown format, before any buffer allocation), buffer
sizing, metadata extraction with documented defaults, ROI computation, and
the scalar fields of the three IFDs.  The TIFF byte serialization itself is
the external library's work and is not modelled. -/
def dng_save (fmt : PixelFormat) (info : StreamInfo) (meta : DngMetadata)
    (opts : DngOptions) : Except String DngFields :=
  match bayer_formats fmt with
  | none => .error "unsupported Bayer format"
  | some bf =>
    let force8 := opts.force_8_bit
    let force10 := opts.force_10_bit
    let bytesPerPixel : ℚ :=
      if force8 then 1 else if force10 then 1.25 else (bf.bits : ℚ) / 8
    let bitsPerPixel : Nat :=
      if bf.compressed then 16
      else if bf.packed then (if force8 then 8 else if force10 then 10 else bf.bits)
      else 16
    let buf8Len := truncToNat ((info.width : ℚ) * bytesPerPixel * (info.height : ℚ))
    let buf_stride_pixels := info.width
    let buf_stride_pixels_padded := padded8 info.width
    let buf16Len := buf_stride_pixels_padded * info.height
    let buf_stride_pixels :=
      if bf.compressed then buf_stride_pixels_padded else buf_stride_pixels
    let blacks := blackLevelsOf bf force8 force10 meta.sensorBlackLevels
    let expTime : ℚ := (match meta.exposureTime with | some e => e | none => 10000) / 1000000
    let iso : Nat :=
      match meta.analogueGain with
      | some g => truncToNat (g * 100) % 65536
      | none => 100
    let neutral := neutralOf meta.colourGains
    let camXYZ :=
      ((RGB2XYZ.mul (ccmOf meta.colourCorrectionMatrix)).mul (wbGainsOf meta.colourGains)).Inv
    let white := 2 ^ bf.bits - 1
    let startX0 := truncToNat ((info.width : ℚ) * opts.roi_x)
    let startX :=
      if bitsPerPixel = 10 then startX0 - startX0 % 4
      else if bitsPerPixel = 12 then startX0 - startX0 % 2
      else startX0
    let startY := truncToNat ((info.height : ℚ) * opts.roi_y)
    let w0 := truncToNat ((info.width : ℚ) * opts.roi_width)
    let h0 := truncToNat ((info.height : ℚ) * opts.roi_height)
    let w1 := if w0 = 0 then info.width - startX else w0
    let h1 := if h0 = 0 then info.height else h0
    let endX := startX + w1
    let endY := startY + h1
    let w2 := if endX > info.width then info.width - startX else w1
    let h2 := if endY > info.height then info.height - startY else h1
    .ok ⟨info.width >>> thumbnailSizeMultiplier, info.height >>> thumbnailSizeMultiplier, 8,
         w2, h2, bitsPerPixel, bf.order, white, blacks, neutral, camXYZ, expTime, iso,
         buf8Len, buf16Len, buf_stride_pixels⟩

/-! ### Bit-arithmetic toolkit -/

theorem and_mask_high (w j k : Nat) (h : w < 2 ^ (j + k)) :
    w &&& ((2 ^ j - 1) <<< k) = w / 2 ^ k * 2 ^ k := by
  apply Nat.eq_of_testBit_eq
  intro i
  have hrhs : w / 2 ^ k * 2 ^ k = (w >>> k) <<< k := by
    rw [Nat.shiftRight_eq_div_pow, Nat.shiftLeft_eq]
  rw [hrhs, Nat.testBit_and, Nat.testBit_shiftLeft, Nat.testBit_shiftLeft,
    Nat.testBit_shiftRight, Nat.testBit_two_pow_sub_one]
  by_cases hik : i ≥ k
  · have hsum : k + (i - k) = i := by omega
    rw [hsum]
    by_cases hij : i - k < j
    · simp [hik, hij]
    · have hpow : 2 ^ (j + k) ≤ 2 ^ i := Nat.pow_le_pow_right (by norm_num) (by omega)
      have hw : Nat.testBit w i = false := Nat.testBit_lt_two_pow (lt_of_lt_of_le h hpow)
      simp [hik, hij, hw]
  · simp [hik]

theorem wAlign4_eq (w : Nat) (h : w < 2 ^ 32) : wAlign4 w = w / 4 * 4 := by
  have hm : (0xFFFFFFFC : Nat) = (2 ^ 30 - 1) <<< 2 := by decide
  have := and_mask_high w 30 2 (by norm_num at h ⊢; omega)
  simpa [wAlign4, hm] using this

theorem wAlign2_eq (w : Nat) (h : w < 2 ^ 32) : wAlign2 w = w / 2 * 2 := by
  have hm : (0xFFFFFFFE : Nat) = (2 ^ 31 - 1) <<< 1 := by decide
  have := and_mask_high w 31 1 (by norm_num at h ⊢; omega)
  simpa [wAlign2, hm] using this

theorem padded8_eq (w : Nat) (h : w + 7 < 2 ^ 32) : padded8 w = (w + 7) / 8 * 8 := by
  have hm : (0xFFFFFFF8 : Nat) = (2 ^ 29 - 1) <<< 3 := by decide
  have := and_mask_high (w + 7) 29 3 (by norm_num at h ⊢; omega)
  simpa [padded8, hm] using this

theorem nGroups10_eq (w : Nat) (h : w < 2 ^ 32) : nGroups10 w = w / 4 := by
  rw [nGroups10, wAlign4_eq w h]; omega

theorem nGroups12_eq (w : Nat) (h : w < 2 ^ 32) : nGroups12 w = w / 2 := by
  rw [nGroups12, wAlign2_eq w h]; omega

theorem shl_or_eq_add (a b k : Nat) (hb : b < 2 ^ k) : (a <<< k) ||| b = a * 2 ^ k + b := by
  rw [Nat.shiftLeft_eq, Nat.mul_comm a (2 ^ k), ← Nat.mul_add_lt_is_or hb,
    Nat.mul_comm (2 ^ k) a]

theorem div_mul_add_div (y s o : Nat) (h : o < s) : (y * s + o) / s = y := by
  rw [Nat.mul_comm, Nat.mul_add_div (by omega), Nat.div_eq_of_lt h]
  omega

theorem div_mul_add_mod (y s o : Nat) (h : o < s) : (y * s + o) % s = o := by
  rw [Nat.mul_comm, Nat.mul_add_mod]
  exact Nat.mod_eq_of_lt h

theorem and3_eq (x : Nat) : x &&& 3 = x % 4 := by
  have := Nat.and_pow_two_sub_one_eq_mod x 2
  norm_num at this
  exact this

theorem and15_eq (x : Nat) : x &&& 15 = x % 16 := by
  have := Nat.and_pow_two_sub_one_eq_mod x 4
  norm_num at this
  exact this

theorem and63_eq (x : Nat) : x &&& 63 = x % 64 := by
  have := Nat.and_pow_two_sub_one_eq_mod x 6
  norm_num at this
  exact this

theorem and255_eq (x : Nat) : x &&& 255 = x % 256 := by
  have := Nat.and_pow_two_sub_one_eq_mod x 8
  norm_num at this
  exact this

theorem or4_eq (a b : Nat) (hb : b < 4) : (a <<< 2) ||| b = a * 4 + b := by
  have h := shl_or_eq_add a b 2 (by norm_num; omega)
  norm_num at h
  exact h

theorem or16_eq (a b : Nat) (hb : b < 16) : (a <<< 4) ||| b = a * 16 + b := by
  have h := shl_or_eq_add a b 4 (by norm_num; omega)
  norm_num at h
  exact h

theorem or64_eq (a b : Nat) (hb : b < 64) : (a <<< 6) ||| b = a * 64 + b := by
  have h := shl_or_eq_add a b 6 (by norm_num; omega)
  norm_num at h
  exact h

theorem or256_eq (a b : Nat) (hb : b < 256) : (a <<< 8) ||| b = a * 256 + b := by
  have h := shl_or_eq_add a b 8 (by norm_num; omega)
  norm_num at h
  exact h

/-! ### Round-trip of the 12-bit unpacker (claim C1, 12-bit half) -/

theorem pack12_read (vals : Nat → Nat) (info : StreamInfo) (y g k : Nat) (hk : k < 3)
    (ho : 3 * g + k < info.stride) :
    pack12 vals info (y * info.stride + (3 * g + k)) =
      if k < 2 then vals (y * info.width + 2 * g + k) >>> 4
      else ((vals (y * info.width + 2 * g + 1) % 16) <<< 4) |||
        (vals (y * info.width + 2 * g) % 16) := by
  have h3 : (y * info.stride + (3 * g + k)) / info.stride = y := div_mul_add_div y _ _ ho
  have h4 : (y * info.stride + (3 * g + k)) % info.stride = 3 * g + k := div_mul_add_mod y _ _ ho
  have h5 : (3 * g + k) / 3 = g := by omega
  have h6 : (3 * g + k) % 3 = k := by omega
  simp only [pack12, h3, h4, h5, h6]
  rcases (show k = 0 ∨ k = 1 ∨ k = 2 by omega) with h | h | h <;> simp [h]

theorem unpack12Group_pack (vals : Nat → Nat) (info : StreamInfo) (y g : Nat)
    (hv : ∀ i, vals i < 4096) (hs : 3 * g + 2 < info.stride) :
    unpack12Group (pack12 vals info) (y * info.stride + 3 * g) =
      ([vals (y * info.width + 2 * g) / 16,
        vals (y * info.width + 2 * g) % 16 * 16 + vals (y * info.width + 2 * g + 1) / 256,
        vals (y * info.width + 2 * g + 1) % 256],
       [vals (y * info.width + 2 * g), vals (y * info.width + 2 * g + 1)]) := by
  have hv1 := hv (y * info.width + 2 * g)
  have hv2 := hv (y * info.width + 2 * g + 1)
  have e0 : pack12 vals info (y * info.stride + 3 * g) =
      vals (y * info.width + 2 * g) >>> 4 := by
    have h := pack12_read vals info y g 0 (by omega) (by omega)
    simpa using h
  have e1 : pack12 vals info (y * info.stride + 3 * g + 1) =
      vals (y * info.width + 2 * g + 1) >>> 4 := by
    have h := pack12_read vals info y g 1 (by omega) (by omega)
    rw [show y * info.stride + 3 * g + 1 = y * info.stride + (3 * g + 1) from by omega]
    simpa using h
  have e2 : pack12 vals info (y * info.stride + 3 * g + 2) =
      ((vals (y * info.width + 2 * g + 1) % 16) <<< 4) |||
        (vals (y * info.width + 2 * g) % 16) := by
    have h := pack12_read vals info y g 2 (by omega) (by omega)
    rw [show y * info.stride + 3 * g + 2 = y * info.stride + (3 * g + 2) from by omega]
    simpa using h
  set v1 := vals (y * info.width + 2 * g) with hv1d
  set v2 := vals (y * info.width + 2 * g + 1) with hv2d
  have hshr4 : ∀ x : Nat, x >>> 4 = x / 16 := fun x => by
    rw [Nat.shiftRight_eq_div_pow]
  have hshr8 : ∀ x : Nat, x >>> 8 = x / 256 := fun x => by
    rw [Nat.shiftRight_eq_div_pow]
  have hc : ((v2 % 16) <<< 4) ||| (v1 % 16) = v2 % 16 * 16 + v1 % 16 :=
    or16_eq _ _ (by omega)
  have hcm : (v2 % 16 * 16 + v1 % 16) % 256 = v2 % 16 * 16 + v1 % 16 :=
    Nat.mod_eq_of_lt (by omega)
  have hca : (v2 % 16 * 16 + v1 % 16) % 16 = v1 % 16 := by omega
  have hcb : (v2 % 16 * 16 + v1 % 16) / 16 % 16 = v2 % 16 := by omega
  have hm3 : v1 / 16 % 256 = v1 / 16 := Nat.mod_eq_of_lt (by omega)
  have hm4 : v2 / 16 % 256 = v2 / 16 := Nat.mod_eq_of_lt (by omega)
  have hval1 : ((v1 / 16) <<< 4) ||| (v1 % 16) = v1 := by
    rw [or16_eq _ _ (by omega)]; omega
  have hval2 : ((v2 / 16) <<< 4) ||| (v2 % 16) = v2 := by
    rw [or16_eq _ _ (by omega)]; omega
  have hm1 : v1 % 65536 = v1 := Nat.mod_eq_of_lt (by omega)
  have hm2 : v2 % 65536 = v2 := Nat.mod_eq_of_lt (by omega)
  have hbyte2 : ((v1 % 16) <<< 4) ||| (v2 / 256) = v1 % 16 * 16 + v2 / 256 :=
    or16_eq _ _ (by omega)
  have hm6 : (v1 % 16 * 16 + v2 / 256) % 256 = v1 % 16 * 16 + v2 / 256 :=
    Nat.mod_eq_of_lt (by omega)
  have hm7 : v2 % 256 % 256 = v2 % 256 := Nat.mod_eq_of_lt (Nat.mod_lt _ (by norm_num))
  simp only [unpack12Group, e0, e1, e2, hc, hcm, hshr4, hshr8, Nat.shiftRight_zero,
    and15_eq, and255_eq, hca, hcb, hm3, hm4, hval1, hval2, hm1, hm2, hbyte2, hm6, hm7]

theorem decode12Chunk_pack (v1 v2 : Nat) (h1 : v1 < 4096) (h2 : v2 < 4096) :
    decode12Chunk (v1 / 16) (v1 % 16 * 16 + v2 / 256) (v2 % 256) = [v1, v2] := by
  have hshr4 : ∀ x : Nat, x >>> 4 = x / 16 := fun x => by rw [Nat.shiftRight_eq_div_pow]
  have hb2 : (v1 % 16 * 16 + v2 / 256) / 16 = v1 % 16 := by omega
  have hb2m : (v1 % 16 * 16 + v2 / 256) % 16 = v2 / 256 := by omega
  have h1e : ((v1 / 16) <<< 4) ||| (v1 % 16) = v1 := by rw [or16_eq _ _ (by omega)]; omega
  have h2e : ((v2 / 256) <<< 8) ||| (v2 % 256) = v2 := by rw [or256_eq _ _ (by omega)]; omega
  simp only [decode12Chunk, hshr4, and15_eq, hb2, hb2m, h1e, h2e]

theorem decode12_append (k : Nat) : ∀ l1 l2 : List Nat, l1.length = 3 * k →
    decode12 (l1 ++ l2) = decode12 l1 ++ decode12 l2 := by
  induction k with
  | zero =>
    intro l1 l2 h
    have : l1 = [] := List.eq_nil_of_length_eq_zero (by omega)
    subst this
    simp [decode12]
  | succ n ih =>
    intro l1 l2 h
    rcases l1 with _ | ⟨a, _ | ⟨b, _ | ⟨c, rest⟩⟩⟩
    · simp at h
    · simp at h; omega
    · simp at h; omega
    · simp only [List.cons_append, decode12, List.append_eq]
      rw [ih rest l2 (by simp at h; omega)]
      simp [decode12]

theorem unpack12Row_pack (vals : Nat → Nat) (info : StreamInfo) (y : Nat)
    (hv : ∀ i, vals i < 4096) :
    ∀ n, 3 * n ≤ info.stride →
      (unpack12Row (pack12 vals info) (y * info.stride) n).2 =
          (List.range (2 * n)).map (fun x => vals (y * info.width + x)) ∧
        (unpack12Row (pack12 vals info) (y * info.stride) n).1.length = 3 * n ∧
        decode12 (unpack12Row (pack12 vals info) (y * info.stride) n).1 =
          (List.range (2 * n)).map (fun x => vals (y * info.width + x)) := by
  intro n
  induction n with
  | zero => intro _; simp [unpack12Row, decode12]
  | succ m ih =>
    intro hs
    obtain ⟨ih2, ihlen, ihdec⟩ := ih (by omega)
    have hg := unpack12Group_pack vals info y m hv (by omega)
    have hr : List.range (2 * (m + 1)) = List.range (2 * m) ++ [2 * m, 2 * m + 1] := by
      rw [show 2 * (m + 1) = 2 * m + 1 + 1 from by ring, List.range_succ, List.range_succ]
      simp
    have hdecg := decode12Chunk_pack (vals (y * info.width + 2 * m))
      (vals (y * info.width + 2 * m + 1)) (hv _) (hv _)
    refine ⟨?_, ?_, ?_⟩
    · simp only [unpack12Row, hg, ih2, hr, List.map_append, List.map_cons, List.map_nil]
      simp [Nat.add_assoc]
    · simp only [unpack12Row, hg, List.length_append, ihlen, List.length_cons]
      simp; omega
    · simp only [unpack12Row, hg]
      rw [decode12_append m _ _ ihlen, ihdec]
      simp only [hr, List.map_append, List.map_cons, List.map_nil]
      have : decode12 [vals (y * info.width + 2 * m) / 16,
          vals (y * info.width + 2 * m) % 16 * 16 + vals (y * info.width + 2 * m + 1) / 256,
          vals (y * info.width + 2 * m + 1) % 256] =
          [vals (y * info.width + 2 * m), vals (y * info.width + 2 * m + 1)] := by
        simp only [decode12]
        rw [hdecg]
        simp [decode12]
      rw [this]
      simp [Nat.add_assoc]

theorem unpack12Rows_pack (vals : Nat → Nat) (info : StreamInfo)
    (hv : ∀ i, vals i < 4096) (hs : 3 * nGroups12 info.width ≤ info.stride) :
    ∀ h, (unpack12Rows (pack12 vals info) info h).2 =
          expectedVals vals info.width (2 * nGroups12 info.width) h ∧
        (unpack12Rows (pack12 vals info) info h).1.length = 3 * nGroups12 info.width * h ∧
        decode12 (unpack12Rows (pack12 vals info) info h).1 =
          expectedVals vals info.width (2 * nGroups12 info.width) h := by
  intro h
  induction h with
  | zero => simp [unpack12Rows, expectedVals, decode12]
  | succ m ih =>
    obtain ⟨ih2, ihlen, ihdec⟩ := ih
    obtain ⟨hrow2, hrowlen, hrowdec⟩ := unpack12Row_pack vals info m hv (nGroups12 info.width) hs
    have hexp : expectedVals vals info.width (2 * nGroups12 info.width) (m + 1) =
        expectedVals vals info.width (2 * nGroups12 info.width) m ++
          (List.range (2 * nGroups12 info.width)).map (fun x => vals (m * info.width + x)) := by
      simp [expectedVals, List.range_succ]
    refine ⟨?_, ?_, ?_⟩
    · simp only [unpack12Rows, ih2, hrow2, hexp]
    · simp only [unpack12Rows, List.length_append, ihlen, hrowlen]
      ring
    · simp only [unpack12Rows]
      rw [decode12_append (nGroups12 info.width * m) _ _ (by rw [ihlen]; ring), ihdec, hrowdec,
        hexp]

/-! ### Round-trip of the 10-bit unpacker (claim C1, 10-bit half) -/

theorem pack10_read (vals : Nat → Nat) (info : StreamInfo) (y g k : Nat) (hk : k < 5)
    (ho : 5 * g + k < info.stride) :
    pack10 vals info (y * info.stride + (5 * g + k)) =
      if k < 4 then vals (y * info.width + 4 * g + k) >>> 2
      else ((vals (y * info.width + 4 * g + 3) % 4) <<< 6) |||
        (((vals (y * info.width + 4 * g + 2) % 4) <<< 4) |||
          (((vals (y * info.width + 4 * g + 1) % 4) <<< 2) |||
            (vals (y * info.width + 4 * g) % 4))) := by
  have h3 : (y * info.stride + (5 * g + k)) / info.stride = y := div_mul_add_div y _ _ ho
  have h4 : (y * info.stride + (5 * g + k)) % info.stride = 5 * g + k := div_mul_add_mod y _ _ ho
  have h5 : (5 * g + k) / 5 = g := by omega
  have h6 : (5 * g + k) % 5 = k := by omega
  simp only [pack10, h3, h4, h5, h6]
  rcases (show k = 0 ∨ k = 1 ∨ k = 2 ∨ k = 3 ∨ k = 4 by omega) with h | h | h | h | h <;> simp [h]

theorem unpack10Group_pack (vals : Nat → Nat) (info : StreamInfo) (y g : Nat)
    (hv : ∀ i, vals i < 1024) (hs : 5 * g + 4 < info.stride) :
    unpack10Group (pack10 vals info) (y * info.stride + 5 * g) =
      ([vals (y * info.width + 4 * g) / 4,
        vals (y * info.width + 4 * g) % 4 * 64 + vals (y * info.width + 4 * g + 1) / 16,
        vals (y * info.width + 4 * g + 1) % 16 * 16 + vals (y * info.width + 4 * g + 2) / 64,
        vals (y * info.width + 4 * g + 2) % 64 * 4 + vals (y * info.width + 4 * g + 3) / 256,
        vals (y * info.width + 4 * g + 3) % 256],
       [vals (y * info.width + 4 * g), vals (y * info.width + 4 * g + 1),
        vals (y * info.width + 4 * g + 2), vals (y * info.width + 4 * g + 3)]) := by
  have ha := hv (y * info.width + 4 * g)
  have hb := hv (y * info.width + 4 * g + 1)
  have hcc := hv (y * info.width + 4 * g + 2)
  have hd := hv (y * info.width + 4 * g + 3)
  have e0 : pack10 vals info (y * info.stride + 5 * g) =
      vals (y * info.width + 4 * g) >>> 2 := by
    have h := pack10_read vals info y g 0 (by omega) (by omega)
    simpa using h
  have e1 : pack10 vals info (y * info.stride + 5 * g + 1) =
      vals (y * info.width + 4 * g + 1) >>> 2 := by
    have h := pack10_read vals info y g 1 (by omega) (by omega)
    rw [show y * info.stride + 5 * g + 1 = y * info.stride + (5 * g + 1) from by omega]
    simpa using h
  have e2 : pack10 vals info (y * info.stride + 5 * g + 2) =
      vals (y * info.width + 4 * g + 2) >>> 2 := by
    have h := pack10_read vals info y g 2 (by omega) (by omega)
    rw [show y * info.stride + 5 * g + 2 = y * info.stride + (5 * g + 2) from by omega]
    simpa using h
  have e3 : pack10 vals info (y * info.stride + 5 * g + 3) =
      vals (y * info.width + 4 * g + 3) >>> 2 := by
    have h := pack10_read vals info y g 3 (by omega) (by omega)
    rw [show y * info.stride + 5 * g + 3 = y * info.stride + (5 * g + 3) from by omega]
    simpa using h
  have e4 : pack10 vals info (y * info.stride + 5 * g + 4) =
      ((vals (y * info.width + 4 * g + 3) % 4) <<< 6) |||
        (((vals (y * info.width + 4 * g + 2) % 4) <<< 4) |||
          (((vals (y * info.width + 4 * g + 1) % 4) <<< 2) |||
            (vals (y * info.width + 4 * g) % 4))) := by
    have h := pack10_read vals info y g 4 (by omega) (by omega)
    rw [show y * info.stride + 5 * g + 4 = y * info.stride + (5 * g + 4) from by omega]
    simpa using h
  set a := vals (y * info.width + 4 * g) with had
  set b := vals (y * info.width + 4 * g + 1) with hbd
  set c := vals (y * info.width + 4 * g + 2) with hcd
  set d := vals (y * info.width + 4 * g + 3) with hdd
  have hshr2 : ∀ x : Nat, x >>> 2 = x / 4 := fun x => by rw [Nat.shiftRight_eq_div_pow]
  have hshr4 : ∀ x : Nat, x >>> 4 = x / 16 := fun x => by rw [Nat.shiftRight_eq_div_pow]
  have hshr6 : ∀ x : Nat, x >>> 6 = x / 64 := fun x => by rw [Nat.shiftRight_eq_div_pow]
  have hshr8 : ∀ x : Nat, x >>> 8 = x / 256 := fun x => by rw [Nat.shiftRight_eq_div_pow]
  have hc1 : ((b % 4) <<< 2) ||| (a % 4) = b % 4 * 4 + a % 4 := or4_eq _ _ (by omega)
  have hc2 : ((c % 4) <<< 4) ||| (b % 4 * 4 + a % 4) = c % 4 * 16 + (b % 4 * 4 + a % 4) :=
    or16_eq _ _ (by omega)
  have hc3 : ((d % 4) <<< 6) ||| (c % 4 * 16 + (b % 4 * 4 + a % 4)) =
      d % 4 * 64 + (c % 4 * 16 + (b % 4 * 4 + a % 4)) := or64_eq _ _ (by omega)
  have hEm : (d % 4 * 64 + (c % 4 * 16 + (b % 4 * 4 + a % 4))) % 256 =
      d % 4 * 64 + (c % 4 * 16 + (b % 4 * 4 + a % 4)) := Nat.mod_eq_of_lt (by omega)
  have hE0 : (d % 4 * 64 + (c % 4 * 16 + (b % 4 * 4 + a % 4))) % 4 = a % 4 := by omega
  have hE1 : (d % 4 * 64 + (c % 4 * 16 + (b % 4 * 4 + a % 4))) / 4 % 4 = b % 4 := by omega
  have hE2 : (d % 4 * 64 + (c % 4 * 16 + (b % 4 * 4 + a % 4))) / 16 % 4 = c % 4 := by omega
  have hE3 : (d % 4 * 64 + (c % 4 * 16 + (b % 4 * 4 + a % 4))) / 64 % 4 = d % 4 := by omega
  have hma : a / 4 % 256 = a / 4 := Nat.mod_eq_of_lt (by omega)
  have hmb : b / 4 % 256 = b / 4 := Nat.mod_eq_of_lt (by omega)
  have hmc : c / 4 % 256 = c / 4 := Nat.mod_eq_of_lt (by omega)
  have hmd : d / 4 % 256 = d / 4 := Nat.mod_eq_of_lt (by omega)
  have hva : ((a / 4) <<< 2) ||| (a % 4) = a := by rw [or4_eq _ _ (by omega)]; omega
  have hvb : ((b / 4) <<< 2) ||| (b % 4) = b := by rw [or4_eq _ _ (by omega)]; omega
  have hvc : ((c / 4) <<< 2) ||| (c % 4) = c := by rw [or4_eq _ _ (by omega)]; omega
  have hvd : ((d / 4) <<< 2) ||| (d % 4) = d := by rw [or4_eq _ _ (by omega)]; omega
  have hwa : a % 65536 = a := Nat.mod_eq_of_lt (by omega)
  have hwb : b % 65536 = b := Nat.mod_eq_of_lt (by omega)
  have hwc : c % 65536 = c := Nat.mod_eq_of_lt (by omega)
  have hwd : d % 65536 = d := Nat.mod_eq_of_lt (by omega)
  have hb2 : ((a % 4) <<< 6) ||| (b / 16) = a % 4 * 64 + b / 16 := or64_eq _ _ (by omega)
  have hb2m : (a % 4 * 64 + b / 16) % 256 = a % 4 * 64 + b / 16 := Nat.mod_eq_of_lt (by omega)
  have hb3 : ((b % 16) <<< 4) ||| (c / 64) = b % 16 * 16 + c / 64 := or16_eq _ _ (by omega)
  have hb3m : (b % 16 * 16 + c / 64) % 256 = b % 16 * 16 + c / 64 := Nat.mod_eq_of_lt (by omega)
  have hb4 : ((c % 64) <<< 2) ||| (d / 256) = c % 64 * 4 + d / 256 := or4_eq _ _ (by omega)
  have hb4m : (c % 64 * 4 + d / 256) % 256 = c % 64 * 4 + d / 256 := Nat.mod_eq_of_lt (by omega)
  have hb5 : d % 256 % 256 = d % 256 := Nat.mod_eq_of_lt (Nat.mod_lt _ (by norm_num))
  simp only [unpack10Group, e0, e1, e2, e3, e4, hc1, hc2, hc3, hEm, hshr2, hshr4, hshr6, hshr8,
    Nat.shiftRight_zero, and3_eq, and15_eq, and63_eq, and255_eq, hE0, hE1, hE2, hE3,
    hma, hmb, hmc, hmd, hva, hvb, hvc, hvd, hwa, hwb, hwc, hwd, hb2, hb2m, hb3, hb3m,
    hb4, hb4m, hb5]

theorem decode10Chunk_pack (a b c d : Nat)
    (ha : a < 1024) (hb : b < 1024) (hc : c < 1024) (hd : d < 1024) :
    decode10Chunk (a / 4) (a % 4 * 64 + b / 16) (b % 16 * 16 + c / 64) (c % 64 * 4 + d / 256)
      (d % 256) = [a, b, c, d] := by
  have hshr2 : ∀ x : Nat, x >>> 2 = x / 4 := fun x => by rw [Nat.shiftRight_eq_div_pow]
  have hshr4 : ∀ x : Nat, x >>> 4 = x / 16 := fun x => by rw [Nat.shiftRight_eq_div_pow]
  have hshr6 : ∀ x : Nat, x >>> 6 = x / 64 := fun x => by rw [Nat.shiftRight_eq_div_pow]
  have h1a : (a % 4 * 64 + b / 16) / 64 = a % 4 := by omega
  have h1b : (a % 4 * 64 + b / 16) % 64 = b / 16 := by omega
  have h2a : (b % 16 * 16 + c / 64) / 16 = b % 16 := by omega
  have h2b : (b % 16 * 16 + c / 64) % 16 = c / 64 := by omega
  have h3a : (c % 64 * 4 + d / 256) / 4 = c % 64 := by omega
  have h3b : (c % 64 * 4 + d / 256) % 4 = d / 256 := by omega
  have hva : ((a / 4) <<< 2) ||| (a % 4) = a := by rw [or4_eq _ _ (by omega)]; omega
  have hvb : ((b / 16) <<< 4) ||| (b % 16) = b := by rw [or16_eq _ _ (by omega)]; omega
  have hvc : ((c / 64) <<< 6) ||| (c % 64) = c := by rw [or64_eq _ _ (by omega)]; omega
  have hvd : ((d / 256) <<< 8) ||| (d % 256) = d := by rw [or256_eq _ _ (by omega)]; omega
  simp only [decode10Chunk, hshr2, hshr4, hshr6, and3_eq, and15_eq, and63_eq,
    h1a, h1b, h2a, h2b, h3a, h3b, hva, hvb, hvc, hvd]

theorem decode10_append (k : Nat) : ∀ l1 l2 : List Nat, l1.length = 5 * k →
    decode10 (l1 ++ l2) = decode10 l1 ++ decode10 l2 := by
  induction k with
  | zero =>
    intro l1 l2 h
    have : l1 = [] := List.eq_nil_of_length_eq_zero (by omega)
    subst this
    simp [decode10]
  | succ n ih =>
    intro l1 l2 h
    rcases l1 with _ | ⟨a, _ | ⟨b, _ | ⟨c, _ | ⟨d, _ | ⟨e, rest⟩⟩⟩⟩⟩
    · simp at h
    · simp at h; omega
    · simp at h; omega
    · simp at h; omega
    · simp at h; omega
    · simp only [List.cons_append, decode10, List.append_eq]
      rw [ih rest l2 (by simp at h; omega)]
      simp [decode10]

theorem unpack10Row_pack (vals : Nat → Nat) (info : StreamInfo) (y : Nat)
    (hv : ∀ i, vals i < 1024) :
    ∀ n, 5 * n ≤ info.stride →
      (unpack10Row (pack10 vals info) (y * info.stride) n).2 =
          (List.range (4 * n)).map (fun x => vals (y * info.width + x)) ∧
        (unpack10Row (pack10 vals info) (y * info.stride) n).1.length = 5 * n ∧
        decode10 (unpack10Row (pack10 vals info) (y * info.stride) n).1 =
          (List.range (4 * n)).map (fun x => vals (y * info.width + x)) := by
  intro n
  induction n with
  | zero => intro _; simp [unpack10Row, decode10]
  | succ m ih =>
    intro hs
    obtain ⟨ih2, ihlen, ihdec⟩ := ih (by omega)
    have hg := unpack10Group_pack vals info y m hv (by omega)
    have hr : List.range (4 * (m + 1)) =
        List.range (4 * m) ++ [4 * m, 4 * m + 1, 4 * m + 2, 4 * m + 3] := by
      rw [show 4 * (m + 1) = 4 * m + 1 + 1 + 1 + 1 from by ring, List.range_succ,
        List.range_succ, List.range_succ, List.range_succ]
      simp
    have hdecg := decode10Chunk_pack (vals (y * info.width + 4 * m))
      (vals (y * info.width + 4 * m + 1)) (vals (y * info.width + 4 * m + 2))
      (vals (y * info.width + 4 * m + 3)) (hv _) (hv _) (hv _) (hv _)
    refine ⟨?_, ?_, ?_⟩
    · simp only [unpack10Row, hg, ih2, hr, List.map_append, List.map_cons, List.map_nil]
      simp [Nat.add_assoc]
    · simp only [unpack10Row, hg, List.length_append, ihlen, List.length_cons]
      simp; omega
    · simp only [unpack10Row, hg]
      rw [decode10_append m _ _ ihlen, ihdec]
      simp only [hr, List.map_append, List.map_cons, List.map_nil]
      have hone : decode10 [vals (y * info.width + 4 * m) / 4,
          vals (y * info.width + 4 * m) % 4 * 64 + vals (y * info.width + 4 * m + 1) / 16,
          vals (y * info.width + 4 * m + 1) % 16 * 16 + vals (y * info.width + 4 * m + 2) / 64,
          vals (y * info.width + 4 * m + 2) % 64 * 4 + vals (y * info.width + 4 * m + 3) / 256,
          vals (y * info.width + 4 * m + 3) % 256] =
          [vals (y * info.width + 4 * m), vals (y * info.width + 4 * m + 1),
           vals (y * info.width + 4 * m + 2), vals (y * info.width + 4 * m + 3)] := by
        simp only [decode10]
        rw [hdecg]
        simp [decode10]
      rw [hone]
      simp [Nat.add_assoc]

theorem unpack10Rows_pack (vals : Nat → Nat) (info : StreamInfo)
    (hv : ∀ i, vals i < 1024) (hs : 5 * nGroups10 info.width ≤ info.stride) :
    ∀ h, (unpack10Rows (pack10 vals info) info h).2 =
          expectedVals vals info.width (4 * nGroups10 info.width) h ∧
        (unpack10Rows (pack10 vals info) info h).1.length = 5 * nGroups10 info.width * h ∧
        decode10 (unpack10Rows (pack10 vals info) info h).1 =
          expectedVals vals info.width (4 * nGroups10 info.width) h := by
  intro h
  induction h with
  | zero => simp [unpack10Rows, expectedVals, decode10]
  | succ m ih =>
    obtain ⟨ih2, ihlen, ihdec⟩ := ih
    obtain ⟨hrow2, hrowlen, hrowdec⟩ := unpack10Row_pack vals info m hv (nGroups10 info.width) hs
    have hexp : expectedVals vals info.width (4 * nGroups10 info.width) (m + 1) =
        expectedVals vals info.width (4 * nGroups10 info.width) m ++
          (List.range (4 * nGroups10 info.width)).map (fun x => vals (m * info.width + x)) := by
      simp [expectedVals, List.range_succ]
    refine ⟨?_, ?_, ?_⟩
    · simp only [unpack10Rows, ih2, hrow2, hexp]
    · simp only [unpack10Rows, List.length_append, ihlen, hrowlen]
      ring
    · simp only [unpack10Rows]
      rw [decode10_append (nGroups10 info.width * m) _ _ (by rw [ihlen]; ring), ihdec, hrowdec,
        hexp]

/-- C1: packing any sequence of 10-bit values four-at-a-time into 5 bytes per
the production layout (4 MSB bytes then one LSB byte, pixel 0 in the lowest
bit pair) and running `unpack_10bit` reproduces the original values exactly,
both in the parallel 16-bit buffer and in the byte-packed output stream (read
back per its big-endian layout); likewise for 12-bit values packed
two-at-a-time into 3 bytes and run through `unpack_12bit`.  The stride bound
is the natural one (a packed row fits in the stride), and widths are 32-bit
as in the C code. -/
theorem C1_roundtrip :
    (∀ (vals : Nat → Nat) (info : StreamInfo), (∀ i, vals i < 1024) →
        info.width < 2 ^ 32 → 5 * (info.width / 4) ≤ info.stride →
        (unpack_10bit (pack10 vals info) info).2 =
            expectedVals vals info.width (wAlign4 info.width) info.height ∧
          decode10 (unpack_10bit (pack10 vals info) info).1 =
            expectedVals vals info.width (wAlign4 info.width) info.height) ∧
    (∀ (vals : Nat → Nat) (info : StreamInfo), (∀ i, vals i < 4096) →
        info.width < 2 ^ 32 → 3 * (info.width / 2) ≤ info.stride →
        (unpack_12bit (pack12 vals info) info).2 =
            expectedVals vals info.width (wAlign2 info.width) info.height ∧
          decode12 (unpack_12bit (pack12 vals info) info).1 =
            expectedVals vals info.width (wAlign2 info.width) info.height) := by
  constructor
  · intro vals info hv h32 hs
    have hng : wAlign4 info.width = 4 * nGroups10 info.width := by
      rw [nGroups10_eq _ h32, wAlign4_eq _ h32]; ring
    have h1 := unpack10Rows_pack vals info hv
      (by rw [nGroups10_eq _ h32]; exact hs) info.height
    rw [unpack_10bit, hng]
    exact ⟨h1.1, h1.2.2⟩
  · intro vals info hv h32 hs
    have hng : wAlign2 info.width = 2 * nGroups12 info.width := by
      rw [nGroups12_eq _ h32, wAlign2_eq _ h32]; ring
    have h1 := unpack12Rows_pack vals info hv
      (by rw [nGroups12_eq _ h32]; exact hs) info.height
    rw [unpack_12bit, hng]
    exact ⟨h1.1, h1.2.2⟩

/-- Witness for C1 at concrete inputs: an 8x2 10-bit frame with stride 10 and
a 6x2 12-bit frame with stride 9. -/
theorem C1_roundtrip_witness :
    ((unpack_10bit (pack10 (fun i => (37 * i + 5) % 1024) ⟨8, 2, 10⟩) ⟨8, 2, 10⟩).2 =
        expectedVals (fun i => (37 * i + 5) % 1024) 8 (wAlign4 8) 2 ∧
      decode10 (unpack_10bit (pack10 (fun i => (37 * i + 5) % 1024) ⟨8, 2, 10⟩) ⟨8, 2, 10⟩).1 =
        expectedVals (fun i => (37 * i + 5) % 1024) 8 (wAlign4 8) 2) ∧
    ((unpack_12bit (pack12 (fun i => (151 * i + 7) % 4096) ⟨6, 2, 9⟩) ⟨6, 2, 9⟩).2 =
        expectedVals (fun i => (151 * i + 7) % 4096) 6 (wAlign2 6) 2 ∧
      decode12 (unpack_12bit (pack12 (fun i => (151 * i + 7) % 4096) ⟨6, 2, 9⟩) ⟨6, 2, 9⟩).1 =
        expectedVals (fun i => (151 * i + 7) % 4096) 6 (wAlign2 6) 2) :=
  ⟨C1_roundtrip.1 (fun i => (37 * i + 5) % 1024) ⟨8, 2, 10⟩
      (fun _ => Nat.mod_lt _ (by norm_num)) (by norm_num) (by norm_num),
   C1_roundtrip.2 (fun i => (151 * i + 7) % 4096) ⟨6, 2, 9⟩
      (fun _ => Nat.mod_lt _ (by norm_num)) (by norm_num) (by norm_num)⟩

/-! ### Scaling maps (claim C6) -/

theorem scale12to8_eq (v : Nat) : scale12to8 v = v / 16 := by
  unfold scale12to8
  have h : (v : ℚ) / 4096 * 256 = (v : ℚ) / ((16 : ℕ) : ℚ) := by push_cast; ring
  rw [h, Rat.floor_natCast_div_natCast]
  omega

theorem scale12to10_eq (v : Nat) : scale12to10 v = v / 4 := by
  unfold scale12to10
  have h : (v : ℚ) / 4096 * 1024 = (v : ℚ) / ((4 : ℕ) : ℚ) := by push_cast; ring
  rw [h, Rat.floor_natCast_div_natCast]
  omega

/-- C6: the 12-to-8-bit and 12-to-10-bit scaling maps (floating-point
`(v / 4096) * 2^outBits`, truncated; exact in float for these magnitudes) are
monotone non-decreasing on [0, 4095], and the maximum input 4095 maps exactly
to 255 and 1023. -/
theorem C6_scale_monotone :
    (∀ a b : Nat, a ≤ b → b ≤ 4095 → scale12to8 a ≤ scale12to8 b) ∧
    scale12to8 4095 = 255 ∧
    (∀ a b : Nat, a ≤ b → b ≤ 4095 → scale12to10 a ≤ scale12to10 b) ∧
    scale12to10 4095 = 1023 := by
  refine ⟨?_, ?_, ?_, ?_⟩
  · intro a b hab _
    rw [scale12to8_eq, scale12to8_eq]
    omega
  · rw [scale12to8_eq]
  · intro a b hab _
    rw [scale12to10_eq, scale12to10_eq]
    omega
  · rw [scale12to10_eq]

/-- Witness for C6 at concrete inputs. -/
theorem C6_scale_monotone_witness :
    scale12to8 1000 ≤ scale12to8 2000 ∧ scale12to10 1000 ≤ scale12to10 2000 :=
  ⟨C6_scale_monotone.1 1000 2000 (by norm_num) (by norm_num),
   C6_scale_monotone.2.2.1 1000 2000 (by norm_num) (by norm_num)⟩

/-! ### Black-level reordering (claim C2) -/

/-- C2 counterexample: in the RGGB ordering, cell 2 is a G cell whose partner
(cell 3) is not a G, yet the code assigns it slot 2, not slot 1 as the
claim's rule ("slot 1 if the partner is not itself a G") predicts. -/
theorem C2_g_rule_cex :
    TIFF_RGGB.getD 2 0 = 1 ∧ TIFF_RGGB.getD (2 ^^^ 1) 0 ≠ 1 ∧ cfaSlot TIFF_RGGB 2 ≠ 1 := by
  decide

/-- C2 (amended): for each of the four CFA orderings, the cell whose plane is
R receives slot 0, the cell whose plane is B receives slot 3, and a G cell
receives slot 1 exactly when its partner cell (index XOR 1) is an R cell,
else slot 2; the reordering loop therefore stores the black level arriving at
index `i` (the `[R, Gr, Gb, B]` order) at that slot, scaled by
`2^bits / 65536`. -/
theorem C2_black_reorder :
    ∀ order ∈ [TIFF_RGGB, TIFF_GRBG, TIFF_BGGR, TIFF_GBRG], ∀ i < 4,
      (order.getD i 0 = 0 → cfaSlot order i = 0) ∧
      (order.getD i 0 = 2 → cfaSlot order i = 3) ∧
      (order.getD i 0 = 1 →
        cfaSlot order i = if order.getD (i ^^^ 1) 0 = 0 then 1 else 2) ∧
      ∀ (bits : Nat) (l : List ℚ),
        (blackLevelsOf ⟨"", bits, order, false, false⟩ false false (some l)).getD
            (cfaSlot order i) 0 = l.getD i 0 * 2 ^ bits / 65536 := by
  intro order horder i hi
  fin_cases horder <;> interval_cases i <;>
    refine ⟨by decide, by decide, by decide, fun bits l => ?_⟩ <;>
    simp [blackLevelsOf, cfaSlot, TIFF_RGGB, TIFF_GRBG, TIFF_BGGR, TIFF_GBRG]

/-- Witness for C2 at a concrete ordering and input. -/
theorem C2_black_reorder_witness :
    cfaSlot TIFF_GRBG 3 = 2 ∧
      (blackLevelsOf ⟨"", 12, TIFF_GRBG, false, false⟩ false false
          (some [1, 2, 3, 4])).getD (cfaSlot TIFF_GRBG 3) 0 = 4 * 2 ^ 12 / 65536 := by
  have h := C2_black_reorder TIFF_GRBG (by simp) 3 (by norm_num)
  refine ⟨?_, h.2.2.2 12 [1, 2, 3, 4]⟩
  have h3 := h.2.2.1 (by decide)
  rw [h3]
  decide

/-! ### End-to-end scenario 1 (claim C3) -/

/-- C3 counterexample: for the 4056x3040 12-bit packed BGGR frame with no
metadata and no forced depth, the black levels default to
`4096 * 2^12 / 65536 = 256`, not 16 as the claim states. -/
theorem C3_black_cex :
    ((dng_save .SBGGR12_CSI2P ⟨4056, 3040, 6084⟩ noMetadata defaultOptions).map
        DngFields.blackLevels).toOption ≠ some ([16, 16, 16, 16] : List ℚ) := by
  simp only [dng_save, bayer_formats, blackLevelsOf, noMetadata, defaultOptions,
    Except.map, Except.toOption]
  norm_num

/-- C3 (amended): the 4056x3040 frame tagged 12-bit packed BGGR with no
metadata and no forced depth encodes successfully, with main-IFD width 4056,
bits-per-sample 12, black level 256 in all four cells (the 12-bit default
`4096 * 2^12 / 65536`), CFA pattern equal to the BGGR ordering, and thumbnail
width `4056 >> 4`. -/
theorem C3_scenario1 :
    ((dng_save .SBGGR12_CSI2P ⟨4056, 3040, 6084⟩ noMetadata defaultOptions).map
        (fun F => (F.mainWidth, F.bitsPerSample, F.blackLevels, F.cfaPattern,
          F.thumbWidth))).toOption =
      some (4056, 12, ([256, 256, 256, 256] : List ℚ), TIFF_BGGR,
        4056 >>> thumbnailSizeMultiplier) := by
  simp only [dng_save, bayer_formats, blackLevelsOf, noMetadata, defaultOptions, truncToNat,
    Except.map, Option.some.injEq, Except.toOption]
  norm_num [TIFF_BGGR, thumbnailSizeMultiplier, Nat.shiftRight_eq_div_pow]

/-! ### Dequantization (claim C5) -/

theorem subQ_bounds (w j : Nat) (hj : j < 4) :
    0 ≤ subQ w j ∧ subQ w j ≤ (qmodeRange (w &&& 3) : Int) := by
  have hq3 : w &&& 3 ≤ 3 := Nat.and_le_right
  have hf0 : ((w >>> 2) &&& 511 : Nat) ≤ 511 := Nat.and_le_right
  have hf1 : ((w >>> 11) &&& 127 : Nat) ≤ 127 := Nat.and_le_right
  have hf2 : ((w >>> 18) &&& 127 : Nat) ≤ 127 := Nat.and_le_right
  have hf3 : ((w >>> 25) &&& 127 : Nat) ≤ 127 := Nat.and_le_right
  have hp0 : ((w >>> 2) &&& 32767 : Nat) ≤ 32767 := Nat.and_le_right
  have hp1 : ((w >>> 17) &&& 32767 : Nat) ≤ 32767 := Nat.and_le_right
  simp only [subQ]
  by_cases h3 : w &&& 3 < 3
  · rw [if_pos h3]
    rcases (show w &&& 3 = 0 ∨ w &&& 3 = 1 ∨ w &&& 3 = 2 from by omega) with hq | hq | hq <;>
      rw [hq] <;> simp only [qmodeRange] <;> interval_cases j <;>
      simp only [] <;> split_ifs <;> simp_all <;> omega
  · rw [if_neg h3]
    have hq : w &&& 3 = 3 := by omega
    rw [hq]
    simp only [qmodeRange]
    interval_cases j <;> simp only [] <;> omega

/-- C5: `dequantize(0, qmode) = 0` for every qmode; `dequantize` is monotone
non-decreasing in its quantized input within each qmode's field range; and
the quantized values `subBlockFunction` produces do lie within those ranges. -/
theorem C5_dequantize :
    (∀ qmode, dequantize 0 qmode = 0) ∧
    (∀ qmode q1 q2, q1 ≤ q2 → q2 ≤ qmodeRange qmode →
      dequantize q1 qmode ≤ dequantize q2 qmode) ∧
    (∀ w j, j < 4 → 0 ≤ subQ w j ∧ subQ w j ≤ (qmodeRange (w &&& 3) : Int)) := by
  refine ⟨?_, ?_, fun w j hj => subQ_bounds w j hj⟩
  · intro qmode
    rcases qmode with _ | _ | _ | n <;> simp [dequantize]
  · intro qmode q1 q2 h12 h2
    rcases qmode with _ | _ | _ | n
    · simp only [dequantize, qmodeRange] at h2 ⊢
      by_cases ha : q1 < 320 <;> by_cases hb : q2 < 320 <;> simp [ha, hb] <;> omega
    · simp only [dequantize, qmodeRange] at h2 ⊢
      omega
    · simp only [dequantize, qmodeRange] at h2 ⊢
      omega
    · simp only [dequantize, qmodeRange] at h2 ⊢
      by_cases ha : q1 < 94 <;> by_cases hb : q2 < 94 <;> simp [ha, hb] <;> omega

/-- Witness for C5 at concrete inputs. -/
theorem C5_dequantize_witness :
    dequantize 100 0 ≤ dequantize 300 0 ∧
      0 ≤ subQ 12345 2 ∧ subQ 12345 2 ≤ (qmodeRange (12345 &&& 3) : Int) :=
  ⟨C5_dequantize.2.1 0 100 300 (by norm_num) (by decide),
   (C5_dequantize.2.2 12345 2 (by norm_num)).1,
   (C5_dequantize.2.2 12345 2 (by norm_num)).2⟩

/-! ### Calibration matrix (claim C7) -/

/-- C7: the colour matrix written to the DNG is always
`Inverse(RGB2XYZ * CCM * WB_GAINS)` for the CCM and white-balance gains
derived from the metadata; in particular, with colour gains `(2, 1.5)` and an
identity CCM the as-shot neutral is `(1/2, 1, 1/1.5) = (1/2, 1, 2/3)` and the
colour matrix is `Inverse(RGB2XYZ * Id * diag(2, 1, 1.5))`. -/
theorem C7_color_matrix :
    (∀ (fmt : PixelFormat) (info : StreamInfo) (meta : DngMetadata) (opts : DngOptions)
        (F : DngFields), dng_save fmt info meta opts = Except.ok F →
      F.colorMatrix =
        ((RGB2XYZ.mul (ccmOf meta.colourCorrectionMatrix)).mul
          (wbGainsOf meta.colourGains)).Inv) ∧
    (∀ (fmt : PixelFormat) (info : StreamInfo) (meta : DngMetadata) (opts : DngOptions)
        (F : DngFields), dng_save fmt info meta opts = Except.ok F →
      meta.colourGains = some (2, 3 / 2) →
      meta.colourCorrectionMatrix = some [1, 0, 0, 0, 1, 0, 0, 0, 1] →
      F.neutral = [1 / 2, 1, 2 / 3] ∧
        F.colorMatrix =
          ((RGB2XYZ.mul ⟨1, 0, 0, 0, 1, 0, 0, 0, 1⟩).mul (Matrix.diag 2 1 (3 / 2))).Inv) := by
  have key : ∀ (fmt : PixelFormat) (info : StreamInfo) (meta : DngMetadata) (opts : DngOptions)
      (F : DngFields), dng_save fmt info meta opts = Except.ok F →
      F.neutral = neutralOf meta.colourGains ∧
        F.colorMatrix =
          ((RGB2XYZ.mul (ccmOf meta.colourCorrectionMatrix)).mul
            (wbGainsOf meta.colourGains)).Inv := by
    intro fmt info meta opts F h
    unfold dng_save at h
    cases hbf : bayer_formats fmt with
    | none => rw [hbf] at h; exact absurd h (by simp)
    | some bf =>
      rw [hbf] at h
      simp only [Except.ok.injEq] at h
      subst h
      exact ⟨rfl, rfl⟩
  constructor
  · intro fmt info meta opts F h
    exact (key fmt info meta opts F h).2
  · intro fmt info meta opts F h hcg hccm
    obtain ⟨hn, hm⟩ := key fmt info meta opts F h
    constructor
    · rw [hn, hcg]
      norm_num [neutralOf]
    · rw [hm, hcg, hccm]
      norm_num [ccmOf, wbGainsOf]

/-- Witness for C7 at a concrete frame: gains `(2, 3/2)`, identity CCM. -/
theorem C7_color_matrix_witness :
    (dng_save .SRGGB10 ⟨4, 2, 8⟩ ⟨none, none, none, some (2, 3 / 2),
        some [1, 0, 0, 0, 1, 0, 0, 0, 1], none⟩ defaultOptions).map DngFields.neutral =
      Except.ok [1 / 2, 1, 2 / 3] := by
  obtain ⟨F, hF⟩ : ∃ F, dng_save .SRGGB10 ⟨4, 2, 8⟩ ⟨none, none, none, some (2, 3 / 2),
      some [1, 0, 0, 0, 1, 0, 0, 0, 1], none⟩ defaultOptions = Except.ok F := ⟨_, rfl⟩
  have h := C7_color_matrix.2 _ _ _ _ F hF rfl rfl
  rw [hF, Except.map, h.1]

/-! ### Unsupported-format failure (claim C8) -/

/-- C8: a pixel format outside the registry makes `dng_save` fail with the
unsupported-format error as its very first step — before any buffer sizes
are computed or any field of the output is produced — so no output exists
for that frame. -/
theorem C8_unsupported_fails :
    ∀ (fmt : PixelFormat) (info : StreamInfo) (meta : DngMetadata) (opts : DngOptions),
      bayer_formats fmt = none →
      dng_save fmt info meta opts = Except.error "unsupported Bayer format" := by
  intro fmt info meta opts h
  unfold dng_save
  rw [h]

/-- Witness for C8 at a concrete unknown format. -/
theorem C8_unsupported_fails_witness :
    dng_save (.other 0) ⟨4056, 3040, 6084⟩ noMetadata defaultOptions =
      Except.error "unsupported Bayer format" :=
  C8_unsupported_fails (.other 0) ⟨4056, 3040, 6084⟩ noMetadata defaultOptions rfl

/-! ### Decompressor memory layout (claims C9 and C4) -/

theorem subBlockFunction_frame (mem : Nat → Nat) (d w i : Nat)
    (h0 : i ≠ d) (h2 : i ≠ d + 2) (h4 : i ≠ d + 4) (h6 : i ≠ d + 6) :
    subBlockFunction mem d w i = mem i := by
  simp only [subBlockFunction, if_neg h0, if_neg h2, if_neg h4, if_neg h6]

theorem uncompressGroup_frame (src : Nat → Nat) (mem : Nat → Nat) (sp dp i : Nat)
    (h : i < dp ∨ dp + 8 ≤ i) : uncompressGroup src mem sp dp i = mem i := by
  have hmode : COMPRESS_MODE &&& 1 ≠ 0 := by decide
  simp only [uncompressGroup, if_pos hmode, postprocess8]
  rw [if_neg (show ¬(dp ≤ i ∧ i < dp + 8) from by omega)]
  simp only [subBlockFunction]
  have u1 : i ≠ dp + 1 := by omega
  have u2 : i ≠ dp + 1 + 2 := by omega
  have u3 : i ≠ dp + 1 + 4 := by omega
  have u4 : i ≠ dp + 1 + 6 := by omega
  have v1 : i ≠ dp := by omega
  have v2 : i ≠ dp + 2 := by omega
  have v3 : i ≠ dp + 4 := by omega
  have v4 : i ≠ dp + 6 := by omega
  rw [if_neg u1, if_neg u2, if_neg u3, if_neg u4, if_neg v1, if_neg v2, if_neg v3, if_neg v4]

theorem subBlockFunction_at (mem : Nat → Nat) (d w j : Nat) (hj : j < 4) :
    subBlockFunction mem d w (d + 2 * j) = dequantize (qArg w j) (w &&& 3) := by
  interval_cases j <;> simp [subBlockFunction]

theorem uncompressGroup_at (src : Nat → Nat) (mem : Nat → Nat) (sp dp r : Nat) (hr : r < 8) :
    uncompressGroup src mem sp dp (dp + r) =
      groupCell (word32 src sp) (word32 src (sp + 4)) r := by
  have hmode : COMPRESS_MODE &&& 1 ≠ 0 := by decide
  simp only [uncompressGroup, if_pos hmode, postprocess8]
  rw [if_pos (show dp ≤ dp + r ∧ dp + r < dp + 8 from by omega)]
  set w0 := word32 src sp with hw0
  set w1 := word32 src (sp + 4) with hw1
  have g0 : groupCell w0 w1 0 = postprocess (dequantize (qArg w0 0) (w0 &&& 3)) := by
    simp [groupCell]
  have g1 : groupCell w0 w1 1 = postprocess (dequantize (qArg w1 0) (w1 &&& 3)) := by
    simp [groupCell]
  have g2 : groupCell w0 w1 2 = postprocess (dequantize (qArg w0 1) (w0 &&& 3)) := by
    simp [groupCell]
  have g3 : groupCell w0 w1 3 = postprocess (dequantize (qArg w1 1) (w1 &&& 3)) := by
    simp [groupCell]
  have g4 : groupCell w0 w1 4 = postprocess (dequantize (qArg w0 2) (w0 &&& 3)) := by
    simp [groupCell]
  have g5 : groupCell w0 w1 5 = postprocess (dequantize (qArg w1 2) (w1 &&& 3)) := by
    simp [groupCell]
  have g6 : groupCell w0 w1 6 = postprocess (dequantize (qArg w0 3) (w0 &&& 3)) := by
    simp [groupCell]
  have g7 : groupCell w0 w1 7 = postprocess (dequantize (qArg w1 3) (w1 &&& 3)) := by
    simp [groupCell]
  have heven : ∀ j, j < 4 →
      subBlockFunction (subBlockFunction mem dp w0) (dp + 1) w1 (dp + 2 * j) =
        dequantize (qArg w0 j) (w0 &&& 3) := by
    intro j hj
    have hn1 : dp + 2 * j ≠ dp + 1 := by omega
    have hn2 : dp + 2 * j ≠ dp + 1 + 2 := by omega
    have hn3 : dp + 2 * j ≠ dp + 1 + 4 := by omega
    have hn4 : dp + 2 * j ≠ dp + 1 + 6 := by omega
    rw [subBlockFunction_frame (subBlockFunction mem dp w0) (dp + 1) w1 (dp + 2 * j)
      hn1 hn2 hn3 hn4]
    exact subBlockFunction_at mem dp w0 j hj
  have hodd : ∀ j, j < 4 →
      subBlockFunction (subBlockFunction mem dp w0) (dp + 1) w1 (dp + 1 + 2 * j) =
        dequantize (qArg w1 j) (w1 &&& 3) :=
    fun j hj => subBlockFunction_at (subBlockFunction mem dp w0) (dp + 1) w1 j hj
  interval_cases r
  · rw [g0]
    have h := heven 0 (by omega)
    norm_num at h
    exact congrArg postprocess h
  · rw [g1]
    have h := hodd 0 (by omega)
    norm_num at h
    exact congrArg postprocess h
  · rw [g2]
    have h := heven 1 (by omega)
    norm_num at h
    exact congrArg postprocess h
  · rw [g3]
    have h := hodd 1 (by omega)
    norm_num at h
    exact congrArg postprocess h
  · rw [g4]
    have h := heven 2 (by omega)
    norm_num at h
    exact congrArg postprocess h
  · rw [g5]
    have h := hodd 2 (by omega)
    norm_num at h
    exact congrArg postprocess h
  · rw [g6]
    have h := heven 3 (by omega)
    norm_num at h
    exact congrArg postprocess h
  · rw [g7]
    have h := hodd 3 (by omega)
    norm_num at h
    exact congrArg postprocess h

theorem uncompressRowGo_frame (src : Nat → Nat) (spBase dpBase : Nat) :
    ∀ (n : Nat) (mem : Nat → Nat) (i : Nat), (i < dpBase ∨ dpBase + 8 * n ≤ i) →
      uncompressRowGo src spBase dpBase n mem i = mem i := by
  intro n
  induction n with
  | zero => intro mem i _; rfl
  | succ m ih =>
    intro mem i h
    simp only [uncompressRowGo]
    rw [uncompressGroup_frame _ _ _ _ _ (by omega)]
    exact ih mem i (by omega)

theorem uncompressRowGo_at (src : Nat → Nat) (spBase dpBase : Nat) :
    ∀ (n : Nat) (mem : Nat → Nat) (g r : Nat), g < n → r < 8 →
      uncompressRowGo src spBase dpBase n mem (dpBase + 8 * g + r) =
        groupCell (word32 src (spBase + 8 * g)) (word32 src (spBase + 8 * g + 4)) r := by
  intro n
  induction n with
  | zero => intro mem g r hg _; omega
  | succ m ih =>
    intro mem g r hg hr
    simp only [uncompressRowGo]
    by_cases hgm : g = m
    · subst hgm
      rw [show dpBase + 8 * g + r = (dpBase + 8 * g) + r from by omega]
      exact uncompressGroup_at src _ (spBase + 8 * g) (dpBase + 8 * g) r hr
    · rw [uncompressGroup_frame _ _ _ _ _ (by omega)]
      exact ih mem g r (by omega) hr

theorem uncompressRows_at (src : Nat → Nat) (info : StreamInfo) (h32 : info.width + 7 < 2 ^ 32) :
    ∀ (h : Nat) (mem : Nat → Nat) (y g r : Nat), y < h → g < nGroupsC info.width → r < 8 →
      uncompressRows src info h mem (y * padded8 info.width + 8 * g + r) =
        groupCell (word32 src (y * info.stride + 8 * g))
          (word32 src (y * info.stride + 8 * g + 4)) r := by
  have hpad : padded8 info.width = 8 * nGroupsC info.width := by
    rw [padded8_eq _ h32, nGroupsC]; omega
  intro h
  induction h with
  | zero => intro mem y g r hy _ _; omega
  | succ m ih =>
    intro mem y g r hy hg hr
    simp only [uncompressRows]
    by_cases hym : y = m
    · subst hym
      rw [show y * padded8 info.width + 8 * g + r =
          (y * padded8 info.width) + 8 * g + r from by omega]
      exact uncompressRowGo_at src _ _ _ _ g r hg hr
    · rw [uncompressRowGo_frame src _ _ _ _ _ (by
        left
        have hylt : y + 1 ≤ m := by omega
        have : (y + 1) * padded8 info.width ≤ m * padded8 info.width :=
          Nat.mul_le_mul_right _ hylt
        have hx : 8 * g + r < padded8 info.width := by
          rw [hpad]; omega
        have hy1 : y * padded8 info.width + padded8 info.width = (y + 1) * padded8 info.width := by
          ring
        omega)]
      exact ih mem y g r (by omega) hg hr

/-- C9: `subBlockFunction(d, w)` writes exactly the four cells `d[0]`,
`d[2]`, `d[4]`, `d[6]` (cell `d + 2j` receives `dequantize(q[j], qmode)`) and
leaves all other memory unchanged; consequently, within each 8-pixel group
decoded by `uncompress`, the first 32-bit source word supplies the output
pixels at even offsets and the second word those at odd offsets
(`groupCell`). -/
theorem C9_subblock_frame :
    (∀ (mem : Nat → Nat) (d w i : Nat),
      i ≠ d → i ≠ d + 2 → i ≠ d + 4 → i ≠ d + 6 → subBlockFunction mem d w i = mem i) ∧
    (∀ (mem : Nat → Nat) (d w j : Nat), j < 4 →
      subBlockFunction mem d w (d + 2 * j) = dequantize (qArg w j) (w &&& 3)) ∧
    (∀ (src : Nat → Nat) (info : StreamInfo) (mem : Nat → Nat) (y g r : Nat),
      info.width + 7 < 2 ^ 32 → y < info.height → g < nGroupsC info.width → r < 8 →
      uncompress src info mem (y * padded8 info.width + 8 * g + r) =
        groupCell (word32 src (y * info.stride + 8 * g))
          (word32 src (y * info.stride + 8 * g + 4)) r) := by
  refine ⟨subBlockFunction_frame, ?_, ?_⟩
  · intro mem d w j hj
    interval_cases j <;>
      · simp only [subBlockFunction]
        split_ifs <;> first | rfl | omega
  · intro src info mem y g r h32 hy hg hr
    exact uncompressRows_at src info h32 info.height mem y g r hy hg hr

theorem unpack12Group_vals (src : Nat → Nat) (p : Nat) :
    (unpack12Group src p).2 =
      [(((src p % 256) <<< 4) ||| (((src (p + 2) % 256) >>> 0) &&& 15)) % 65536,
       (((src (p + 1) % 256) <<< 4) ||| (((src (p + 2) % 256) >>> 4) &&& 15)) % 65536] := by
  simp [unpack12Group]

theorem unpack12Row_len2 (src : Nat → Nat) (base : Nat) :
    ∀ n, (unpack12Row src base n).2.length = 2 * n := by
  intro n
  induction n with
  | zero => rfl
  | succ m ih =>
    simp only [unpack12Row, List.length_append, ih, unpack12Group_vals, List.length_cons,
      List.length_nil]
    omega

theorem unpack12Rows_len2 (src : Nat → Nat) (info : StreamInfo) :
    ∀ h, (unpack12Rows src info h).2.length = 2 * nGroups12 info.width * h := by
  intro h
  induction h with
  | zero => rfl
  | succ m ih =>
    simp only [unpack12Rows, List.length_append, ih, unpack12Row_len2]
    ring

theorem unpack12Row_get (src : Nat → Nat) (info : StreamInfo) (y : Nat) :
    ∀ n x, x < 2 * n →
      (unpack12Row src (y * info.stride) n).2[x]? = some (pix12 src info y x) := by
  intro n
  induction n with
  | zero => intro x hx; omega
  | succ m ih =>
    intro x hx
    by_cases hxm : x < 2 * m
    · simp only [unpack12Row]
      rw [List.getElem?_append_left (by rw [unpack12Row_len2]; omega)]
      exact ih x hxm
    · simp only [unpack12Row]
      rw [List.getElem?_append_right (by rw [unpack12Row_len2]; omega)]
      rw [unpack12Row_len2]
      rcases (show x = 2 * m ∨ x = 2 * m + 1 from by omega) with hx2 | hx2 <;> subst hx2
      · rw [show 2 * m - 2 * m = 0 from by omega, unpack12Group_vals]
        have hdiv : 2 * m / 2 = m := by omega
        have hmod : 2 * m % 2 = 0 := by omega
        simp [pix12, hdiv, hmod]
      · rw [show 2 * m + 1 - 2 * m = 1 from by omega, unpack12Group_vals]
        have hdiv : (2 * m + 1) / 2 = m := by omega
        have hmod : (2 * m + 1) % 2 = 1 := by omega
        simp [pix12, hdiv, hmod]

theorem unpack12Rows_get (src : Nat → Nat) (info : StreamInfo) :
    ∀ h y x, y < h → x < 2 * nGroups12 info.width →
      (unpack12Rows src info h).2[y * (2 * nGroups12 info.width) + x]? =
        some (pix12 src info y x) := by
  intro h
  induction h with
  | zero => intro y x hy _; omega
  | succ m ih =>
    intro y x hy hx
    by_cases hym : y < m
    · simp only [unpack12Rows]
      rw [List.getElem?_append_left (by
        rw [unpack12Rows_len2]
        have : (y + 1) * (2 * nGroups12 info.width) ≤ m * (2 * nGroups12 info.width) :=
          Nat.mul_le_mul_right _ (by omega)
        have hy1 : y * (2 * nGroups12 info.width) + 2 * nGroups12 info.width =
            (y + 1) * (2 * nGroups12 info.width) := by ring
        have hmul : 2 * nGroups12 info.width * m = m * (2 * nGroups12 info.width) := by ring
        omega)]
      exact ih y x hym hx
    · have hym2 : y = m := by omega
      subst hym2
      simp only [unpack12Rows]
      rw [List.getElem?_append_right (by
        rw [unpack12Rows_len2]
        have hmul : 2 * nGroups12 info.width * y = y * (2 * nGroups12 info.width) := by ring
        omega)]
      rw [unpack12Rows_len2]
      rw [show y * (2 * nGroups12 info.width) + x - 2 * nGroups12 info.width * y = x from
        by have : 2 * nGroups12 info.width * y = y * (2 * nGroups12 info.width) := by ring
           omega]
      exact unpack12Row_get src info y (nGroups12 info.width) x hx

theorem unpack10Group_vals (src : Nat → Nat) (p : Nat) :
    (unpack10Group src p).2 =
      [(((src p % 256) <<< 2) ||| (((src (p + 4) % 256) >>> 0) &&& 3)) % 65536,
       (((src (p + 1) % 256) <<< 2) ||| (((src (p + 4) % 256) >>> 2) &&& 3)) % 65536,
       (((src (p + 2) % 256) <<< 2) ||| (((src (p + 4) % 256) >>> 4) &&& 3)) % 65536,
       (((src (p + 3) % 256) <<< 2) ||| (((src (p + 4) % 256) >>> 6) &&& 3)) % 65536] := by
  simp [unpack10Group]

theorem unpack10Row_len2 (src : Nat → Nat) (base : Nat) :
    ∀ n, (unpack10Row src base n).2.length = 4 * n := by
  intro n
  induction n with
  | zero => rfl
  | succ m ih =>
    simp only [unpack10Row, List.length_append, ih, unpack10Group_vals, List.length_cons,
      List.length_nil]
    omega

theorem unpack10Rows_len2 (src : Nat → Nat) (info : StreamInfo) :
    ∀ h, (unpack10Rows src info h).2.length = 4 * nGroups10 info.width * h := by
  intro h
  induction h with
  | zero => rfl
  | succ m ih =>
    simp only [unpack10Rows, List.length_append, ih, unpack10Row_len2]
    ring

theorem unpack10Row_get (src : Nat → Nat) (info : StreamInfo) (y : Nat) :
    ∀ n x, x < 4 * n →
      (unpack10Row src (y * info.stride) n).2[x]? = some (pix10 src info y x) := by
  intro n
  induction n with
  | zero => intro x hx; omega
  | succ m ih =>
    intro x hx
    by_cases hxm : x < 4 * m
    · simp only [unpack10Row]
      rw [List.getElem?_append_left (by rw [unpack10Row_len2]; omega)]
      exact ih x hxm
    · simp only [unpack10Row]
      rw [List.getElem?_append_right (by rw [unpack10Row_len2]; omega)]
      rw [unpack10Row_len2]
      rcases (show x = 4 * m ∨ x = 4 * m + 1 ∨ x = 4 * m + 2 ∨ x = 4 * m + 3 from by omega)
        with h4 | h4 | h4 | h4 <;> subst h4
      · rw [show 4 * m - 4 * m = 0 from by omega, unpack10Group_vals]
        have hdiv : 4 * m / 4 = m := by omega
        have hmod : 4 * m % 4 = 0 := by omega
        simp [pix10, hdiv, hmod]
      · rw [show 4 * m + 1 - 4 * m = 1 from by omega, unpack10Group_vals]
        have hdiv : (4 * m + 1) / 4 = m := by omega
        have hmod : (4 * m + 1) % 4 = 1 := by omega
        simp [pix10, hdiv, hmod]
      · rw [show 4 * m + 2 - 4 * m = 2 from by omega, unpack10Group_vals]
        have hdiv : (4 * m + 2) / 4 = m := by omega
        have hmod : (4 * m + 2) % 4 = 2 := by omega
        simp [pix10, hdiv, hmod]
      · rw [show 4 * m + 3 - 4 * m = 3 from by omega, unpack10Group_vals]
        have hdiv : (4 * m + 3) / 4 = m := by omega
        have hmod : (4 * m + 3) % 4 = 3 := by omega
        simp [pix10, hdiv, hmod]

theorem unpack10Rows_get (src : Nat → Nat) (info : StreamInfo) :
    ∀ h y x, y < h → x < 4 * nGroups10 info.width →
      (unpack10Rows src info h).2[y * (4 * nGroups10 info.width) + x]? =
        some (pix10 src info y x) := by
  intro h
  induction h with
  | zero => intro y x hy _; omega
  | succ m ih =>
    intro y x hy hx
    by_cases hym : y < m
    · simp only [unpack10Rows]
      rw [List.getElem?_append_left (by
        rw [unpack10Rows_len2]
        have : (y + 1) * (4 * nGroups10 info.width) ≤ m * (4 * nGroups10 info.width) :=
          Nat.mul_le_mul_right _ (by omega)
        have hy1 : y * (4 * nGroups10 info.width) + 4 * nGroups10 info.width =
            (y + 1) * (4 * nGroups10 info.width) := by ring
        have hmul : 4 * nGroups10 info.width * m = m * (4 * nGroups10 info.width) := by ring
        omega)]
      exact ih y x hym hx
    · have hym2 : y = m := by omega
      subst hym2
      simp only [unpack10Rows]
      rw [List.getElem?_append_right (by
        rw [unpack10Rows_len2]
        have hmul : 4 * nGroups10 info.width * y = y * (4 * nGroups10 info.width) := by ring
        omega)]
      rw [unpack10Rows_len2]
      rw [show y * (4 * nGroups10 info.width) + x - 4 * nGroups10 info.width * y = x from
        by have : 4 * nGroups10 info.width * y = y * (4 * nGroups10 info.width) := by ring
           omega]
      exact unpack10Row_get src info y (nGroups10 info.width) x hx

theorem unpack16Row_len (src : Nat → Nat) (base w : Nat) :
    (unpack16Row src base w).length = w := by
  simp [unpack16Row]

theorem unpack16Rows_len (src : Nat → Nat) (info : StreamInfo) :
    ∀ h, (unpack16Rows src info h).length = info.width * h := by
  intro h
  induction h with
  | zero => rfl
  | succ m ih =>
    simp only [unpack16Rows, List.length_append, ih, unpack16Row_len]
    ring

theorem unpack16Rows_get (src : Nat → Nat) (info : StreamInfo) :
    ∀ h y x, y < h → x < info.width →
      (unpack16Rows src info h)[y * info.width + x]? =
        some ((src (y * info.stride + 2 * x) % 256) |||
          ((src (y * info.stride + 2 * x + 1) % 256) <<< 8)) := by
  intro h
  induction h with
  | zero => intro y x hy _; omega
  | succ m ih =>
    intro y x hy hx
    by_cases hym : y < m
    · simp only [unpack16Rows]
      rw [List.getElem?_append_left (by
        rw [unpack16Rows_len]
        have : (y + 1) * info.width ≤ m * info.width := Nat.mul_le_mul_right _ (by omega)
        have hy1 : y * info.width + info.width = (y + 1) * info.width := by ring
        have hmul : info.width * m = m * info.width := by ring
        omega)]
      exact ih y x hym hx
    · have hym2 : y = m := by omega
      subst hym2
      simp only [unpack16Rows]
      rw [List.getElem?_append_right (by
        rw [unpack16Rows_len]
        have hmul : info.width * y = y * info.width := by ring
        omega)]
      rw [unpack16Rows_len]
      rw [show y * info.width + x - info.width * y = x from
        by have : info.width * y = y * info.width := by ring
           omega]
      simp [unpack16Row, hx]

/-- C4 counterexample: for a 10-pixel-wide 12-bit frame (width not a multiple
of 8), the sample of row 1, column 0 is not found at offset
`1 * paddedWidth = 16` of the 16-bit buffer — the packed unpacker stores rows
contiguously at the unpadded width, so it sits at offset 10. -/
theorem C4_padded_offset_cex :
    padded8 10 = 16 ∧
      ((unpack_12bit (fun i => i) ⟨10, 2, 15⟩).2)[1 * padded8 10]? ≠
        some (pix12 (fun i => i) ⟨10, 2, 15⟩ 1 0) := by
  decide

/-- C4 (amended): `buf16Bit` is allocated with `paddedWidth * height`
entries (`paddedWidth = (width + 7) & ~7`, the next multiple of 8); the
block-decompression path stores image row `y` with stride `paddedWidth`
(cell `y * paddedWidth + x` holds the decoded value), but the packed
unpackers and the 16-bit copy store rows contiguously — row `y` starts at
offset `y * (width & ~3)` for the 10-bit path, `y * (width & ~1)` for the
12-bit path and `y * width` for the 16-bit copy; those layouts agree with
the padded one exactly when the width is a multiple of 8 (as for all
production widths), and the thumbnail loop indexes the buffer with stride
`buf_stride_pixels` — the plain width for every non-compressed path and
`paddedWidth` only for the compressed path. -/
theorem C4_buffer_layout :
    (∀ (fmt : PixelFormat) (info : StreamInfo) (meta : DngMetadata) (opts : DngOptions)
        (F : DngFields), dng_save fmt info meta opts = Except.ok F →
      F.buf16Len = padded8 info.width * info.height) ∧
    (∀ w : Nat, w + 7 < 2 ^ 32 → padded8 w % 8 = 0 ∧ w ≤ padded8 w ∧ padded8 w < w + 8) ∧
    (∀ (src : Nat → Nat) (info : StreamInfo) (y x : Nat), info.width < 2 ^ 32 →
      y < info.height → x < wAlign2 info.width →
      ((unpack_12bit src info).2)[y * wAlign2 info.width + x]? = some (pix12 src info y x)) ∧
    (∀ (src : Nat → Nat) (info : StreamInfo) (y x : Nat), info.width < 2 ^ 32 →
      y < info.height → x < wAlign4 info.width →
      ((unpack_10bit src info).2)[y * wAlign4 info.width + x]? = some (pix10 src info y x)) ∧
    (∀ (src : Nat → Nat) (info : StreamInfo) (y x : Nat),
      y < info.height → x < info.width →
      (unpack_16bit src info)[y * info.width + x]? =
        some ((src (y * info.stride + 2 * x) % 256) |||
          ((src (y * info.stride + 2 * x + 1) % 256) <<< 8))) ∧
    (∀ (src : Nat → Nat) (info : StreamInfo) (mem : Nat → Nat) (y x : Nat),
      info.width + 7 < 2 ^ 32 → y < info.height → x < padded8 info.width →
      uncompress src info mem (y * padded8 info.width + x) =
        groupCell (word32 src (y * info.stride + 8 * (x / 8)))
          (word32 src (y * info.stride + 8 * (x / 8) + 4)) (x % 8)) ∧
    (∀ w : Nat, w < 2 ^ 32 → w % 8 = 0 →
      wAlign2 w = w ∧ wAlign4 w = w ∧ padded8 w = w) ∧
    (∀ (fmt : PixelFormat) (info : StreamInfo) (meta : DngMetadata) (opts : DngOptions)
        (F : DngFields) (bf : BayerFormat), bayer_formats fmt = some bf →
      dng_save fmt info meta opts = Except.ok F →
      F.thumbStride = if bf.compressed then padded8 info.width else info.width) := by
  refine ⟨?_, ?_, ?_, ?_, ?_, ?_, ?_, ?_⟩
  · intro fmt info meta opts F h
    unfold dng_save at h
    cases hbf : bayer_formats fmt with
    | none => rw [hbf] at h; exact absurd h (by simp)
    | some bf =>
      rw [hbf] at h
      simp only [Except.ok.injEq] at h
      subst h
      rfl
  · intro w hw
    rw [padded8_eq w hw]
    omega
  · intro src info y x h32 hy hx
    have h2 : wAlign2 info.width = 2 * nGroups12 info.width := by
      rw [nGroups12_eq _ h32, wAlign2_eq _ h32]
      omega
    rw [h2] at hx ⊢
    exact unpack12Rows_get src info info.height y x hy hx
  · intro src info y x h32 hy hx
    have h2 : wAlign4 info.width = 4 * nGroups10 info.width := by
      rw [nGroups10_eq _ h32, wAlign4_eq _ h32]
      omega
    rw [h2] at hx ⊢
    exact unpack10Rows_get src info info.height y x hy hx
  · intro src info y x hy hx
    exact unpack16Rows_get src info info.height y x hy hx
  · intro src info mem y x h32 hy hx
    have hg : x / 8 < nGroupsC info.width := by
      have hp := padded8_eq info.width h32
      rw [nGroupsC] at *
      omega
    have hmain := uncompressRows_at src info h32 info.height mem y (x / 8) (x % 8) hy hg
      (by omega)
    have heq : y * padded8 info.width + 8 * (x / 8) + x % 8 = y * padded8 info.width + x := by
      omega
    rw [heq] at hmain
    exact hmain
  · intro w h1 h2
    have h7 : w + 7 < 2 ^ 32 := by norm_num at h1 ⊢; omega
    rw [wAlign2_eq w h1, wAlign4_eq w h1, padded8_eq w h7]
    omega
  · intro fmt info meta opts F bf hbf h
    unfold dng_save at h
    rw [hbf] at h
    simp only [Except.ok.injEq] at h
    subst h
    rfl

/-- Witness for C4 at concrete inputs, exercising the allocation arithmetic,
the three non-compressed row layouts, the compressed layout and the
thumbnail stride. -/
theorem C4_buffer_layout_witness :
    (padded8 24 % 8 = 0 ∧ 24 ≤ padded8 24 ∧ padded8 24 < 24 + 8) ∧
      ((unpack_12bit (fun i => i) ⟨10, 2, 15⟩).2)[1 * wAlign2 10 + 0]? =
        some (pix12 (fun i => i) ⟨10, 2, 15⟩ 1 0) ∧
      ((unpack_10bit (fun i => i) ⟨8, 2, 10⟩).2)[1 * wAlign4 8 + 2]? =
        some (pix10 (fun i => i) ⟨8, 2, 10⟩ 1 2) ∧
      (unpack_16bit (fun i => i) ⟨4, 2, 8⟩)[1 * 4 + 3]? =
        some (((fun i => i : Nat → Nat) (1 * 8 + 2 * 3) % 256) |||
          (((fun i => i : Nat → Nat) (1 * 8 + 2 * 3 + 1) % 256) <<< 8)) ∧
      uncompress (fun i => i) ⟨8, 1, 8⟩ (fun _ => 0) (0 * padded8 8 + 3) =
        groupCell (word32 (fun i => i) (0 * 8 + 8 * (3 / 8)))
          (word32 (fun i => i) (0 * 8 + 8 * (3 / 8) + 4)) (3 % 8) ∧
      (dng_save .BGGR_PISP_COMP1 ⟨10, 2, 20⟩ noMetadata defaultOptions).map
          DngFields.thumbStride = Except.ok (padded8 10) := by
  obtain ⟨F, hF⟩ : ∃ F, dng_save .BGGR_PISP_COMP1 ⟨10, 2, 20⟩ noMetadata defaultOptions =
      Except.ok F := ⟨_, rfl⟩
  have hth := C4_buffer_layout.2.2.2.2.2.2.2 .BGGR_PISP_COMP1 ⟨10, 2, 20⟩ noMetadata
    defaultOptions F ⟨"BGGR-16-PISP", 16, TIFF_BGGR, false, true⟩ rfl hF
  refine ⟨C4_buffer_layout.2.1 24 (by norm_num),
    C4_buffer_layout.2.2.1 (fun i => i) ⟨10, 2, 15⟩ 1 0 (by norm_num) (by norm_num) (by decide),
    C4_buffer_layout.2.2.2.1 (fun i => i) ⟨8, 2, 10⟩ 1 2 (by norm_num) (by norm_num) (by decide),
    C4_buffer_layout.2.2.2.2.1 (fun i => i) ⟨4, 2, 8⟩ 1 3 (by norm_num) (by norm_num),
    C4_buffer_layout.2.2.2.2.2.1 (fun i => i) ⟨8, 1, 8⟩ (fun _ => 0) 0 3 (by norm_num)
      (by norm_num) (by decide), ?_⟩
  rw [hF, Except.map]
  simp only [hth]
  rfl

/-! ### Loop geometry of the 12-to-10-bit unpacker (claim C10) -/

theorem unpack12to10Row_len (src : Nat → Nat) (base : Nat) :
    ∀ n, (unpack12to10Row src base n).1.length = 5 * n ∧
      (unpack12to10Row src base n).2.length = 4 * n := by
  intro n
  induction n with
  | zero => exact ⟨rfl, rfl⟩
  | succ m ih =>
    simp only [unpack12to10Row, List.length_append, ih.1, ih.2, unpack12to10Group,
      List.length_cons, List.length_nil]
    omega

theorem unpack12to10Rows_len (src : Nat → Nat) (info : StreamInfo) :
    ∀ h, (unpack12to10Rows src info h).1.length = 5 * nGroups12to10 info.width * h ∧
      (unpack12to10Rows src info h).2.length = 4 * nGroups12to10 info.width * h := by
  intro h
  induction h with
  | zero => exact ⟨rfl, rfl⟩
  | succ m ih =>
    simp only [unpack12to10Rows, List.length_append, ih.1, ih.2,
      (unpack12to10Row_len src (m * info.stride) (nGroups12to10 info.width)).1,
      (unpack12to10Row_len src (m * info.stride) (nGroups12to10 info.width)).2]
    constructor <;> ring

theorem unpack12to10Group_congr (src src' : Nat → Nat) (p : Nat)
    (h0 : src p = src' p) (h1 : src (p + 1) = src' (p + 1)) (h2 : src (p + 2) = src' (p + 2))
    (h3 : src (p + 3) = src' (p + 3)) (h4 : src (p + 4) = src' (p + 4))
    (h5 : src (p + 5) = src' (p + 5)) :
    unpack12to10Group src p = unpack12to10Group src' p := by
  simp only [unpack12to10Group, h0, h1, h2, h3, h4, h5]

theorem unpack12to10Row_congr (src src' : Nat → Nat) (base : Nat) :
    ∀ n, (∀ t, t < 6 * n → src (base + t) = src' (base + t)) →
      unpack12to10Row src base n = unpack12to10Row src' base n := by
  intro n
  induction n with
  | zero => intro _; rfl
  | succ m ih =>
    intro h
    have e0 : src (base + 6 * m) = src' (base + 6 * m) := h (6 * m) (by omega)
    have e1 : src (base + 6 * m + 1) = src' (base + 6 * m + 1) := by
      have hh := h (6 * m + 1) (by omega)
      rwa [show base + (6 * m + 1) = base + 6 * m + 1 from by omega] at hh
    have e2 : src (base + 6 * m + 2) = src' (base + 6 * m + 2) := by
      have hh := h (6 * m + 2) (by omega)
      rwa [show base + (6 * m + 2) = base + 6 * m + 2 from by omega] at hh
    have e3 : src (base + 6 * m + 3) = src' (base + 6 * m + 3) := by
      have hh := h (6 * m + 3) (by omega)
      rwa [show base + (6 * m + 3) = base + 6 * m + 3 from by omega] at hh
    have e4 : src (base + 6 * m + 4) = src' (base + 6 * m + 4) := by
      have hh := h (6 * m + 4) (by omega)
      rwa [show base + (6 * m + 4) = base + 6 * m + 4 from by omega] at hh
    have e5 : src (base + 6 * m + 5) = src' (base + 6 * m + 5) := by
      have hh := h (6 * m + 5) (by omega)
      rwa [show base + (6 * m + 5) = base + 6 * m + 5 from by omega] at hh
    simp only [unpack12to10Row, ih (fun t ht => h t (by omega)),
      unpack12to10Group_congr src src' (base + 6 * m) e0 e1 e2 e3 e4 e5]

theorem unpack12to10Rows_congr (src src' : Nat → Nat) (info : StreamInfo) :
    ∀ h, (∀ y t, y < h → t < 6 * nGroups12to10 info.width →
        src (y * info.stride + t) = src' (y * info.stride + t)) →
      unpack12to10Rows src info h = unpack12to10Rows src' info h := by
  intro h
  induction h with
  | zero => intro _; rfl
  | succ m ih =>
    intro hsrc
    simp only [unpack12to10Rows, ih (fun y t hy ht => hsrc y t (by omega) ht),
      unpack12to10Row_congr src src' (m * info.stride) (nGroups12to10 info.width)
        (fun t ht => hsrc m t (by omega) ht)]

/-- C10: for widths that are a multiple of 4, `unpack_12bit_to_10bit` writes
exactly `width` 16-bit samples and `(width/4)*5` output bytes per row, and
its output depends only on the `(width/2)*3` source bytes at the head of
each stride-spaced row; the multiple-of-4 precondition is necessary — the
loop bound is `width & ~1` while each iteration consumes 4 pixels, so for
width ≡ 2 (mod 4) each row actually produces `width + 2` samples, two
columns beyond the bound. -/
theorem C10_12to10_layout :
    (∀ (src : Nat → Nat) (info : StreamInfo), info.width < 2 ^ 32 → info.width % 4 = 0 →
      (unpack_12bit_to_10bit src info).2.length = info.height * info.width ∧
      (unpack_12bit_to_10bit src info).1.length = info.height * (info.width / 4 * 5)) ∧
    (∀ (src src' : Nat → Nat) (info : StreamInfo), info.width < 2 ^ 32 → info.width % 4 = 0 →
      (∀ y t, y < info.height → t < info.width / 2 * 3 →
        src (y * info.stride + t) = src' (y * info.stride + t)) →
      unpack_12bit_to_10bit src info = unpack_12bit_to_10bit src' info) ∧
    (∀ (src : Nat → Nat) (info : StreamInfo), info.width < 2 ^ 32 → info.width % 4 = 2 →
      (unpack_12bit_to_10bit src info).2.length = info.height * (info.width + 2)) := by
  have hng : ∀ w : Nat, w < 2 ^ 32 → nGroups12to10 w = (w / 2 * 2 + 3) / 4 := by
    intro w hw
    rw [nGroups12to10, wAlign2_eq w hw]
  refine ⟨?_, ?_, ?_⟩
  · intro src info h32 h4
    obtain ⟨hl1, hl2⟩ := unpack12to10Rows_len src info info.height
    have hg : nGroups12to10 info.width = info.width / 4 := by rw [hng _ h32]; omega
    rw [unpack_12bit_to_10bit, hl1, hl2, hg]
    constructor
    · have : 4 * (info.width / 4) = info.width := by omega
      rw [Nat.mul_comm (4 * (info.width / 4)) info.height, this]
    · rw [Nat.mul_comm (5 * (info.width / 4)) info.height]
      congr 1
      omega
  · intro src src' info h32 h4 hsrc
    have hb : 6 * nGroups12to10 info.width = info.width / 2 * 3 := by
      rw [hng _ h32]; omega
    rw [unpack_12bit_to_10bit, unpack_12bit_to_10bit]
    exact unpack12to10Rows_congr src src' info info.height
      (fun y t hy ht => hsrc y t hy (by omega))
  · intro src info h32 h2
    obtain ⟨_, hl2⟩ := unpack12to10Rows_len src info info.height
    have hg : 4 * nGroups12to10 info.width = info.width + 2 := by rw [hng _ h32]; omega
    rw [unpack_12bit_to_10bit, hl2, Nat.mul_comm (4 * nGroups12to10 info.width) info.height, hg]

/-- Witness for C10 at concrete inputs: an 8-wide frame (multiple of 4) and
a 6-wide frame (≡ 2 mod 4). -/
theorem C10_12to10_layout_witness :
    ((unpack_12bit_to_10bit (fun i => i) ⟨8, 1, 12⟩).2.length = 1 * 8 ∧
      (unpack_12bit_to_10bit (fun i => i) ⟨8, 1, 12⟩).1.length = 1 * (8 / 4 * 5)) ∧
    (unpack_12bit_to_10bit (fun i => i) ⟨6, 1, 9⟩).2.length = 1 * (6 + 2) :=
  ⟨C10_12to10_layout.1 (fun i => i) ⟨8, 1, 12⟩ (by norm_num) (by norm_num),
   C10_12to10_layout.2.2 (fun i => i) ⟨6, 1, 9⟩ (by norm_num) (by norm_num)⟩

/-- Witness for C9 at concrete inputs. -/
theorem C9_subblock_frame_witness :
    subBlockFunction (fun _ => 0) 5 7 0 = 0 ∧
      subBlockFunction (fun _ => 0) 5 7 (5 + 2 * 1) = dequantize (qArg 7 1) (7 &&& 3) ∧
      uncompress (fun i => i) ⟨8, 1, 8⟩ (fun _ => 0) (0 * padded8 8 + 8 * 0 + 1) =
        groupCell (word32 (fun i => i) (0 * 8 + 8 * 0))
          (word32 (fun i => i) (0 * 8 + 8 * 0 + 4)) 1 :=
  ⟨C9_subblock_frame.1 (fun _ => 0) 5 7 0 (by norm_num) (by norm_num) (by norm_num) (by norm_num),
   C9_subblock_frame.2.1 (fun _ => 0) 5 7 1 (by norm_num),
   C9_subblock_frame.2.2 (fun i => i) ⟨8, 1, 8⟩ (fun _ => 0) 0 0 1 (by norm_num) (by norm_num)
     (by decide) (by norm_num)⟩

end RpiDng
